import Mathlib

/-!
# Asteroids game loop (`src/Main.cpp`): embedding and checked properties

The C++ program is embedded shallowly.

* `int` fields (`hp`, `dmg_dealt`, damages, screen sizes) are mathematical integers `Int`
  (signed overflow is undefined behaviour in C++ and is not modelled).
* `float` fields are exact rationals `ℚ`; every arithmetic step of the source is kept,
  only the rounding of each step is idealised away. Division by zero differs (`x / 0` is `0`
  in `ℚ` and an infinity in `float`); the results about the fire interval `1 / fireRate` are
  stated for rates that are positive or negative, not for a rate of exactly 0.
* The shooting block, where the rounding of `1.f / fireRate` and of the accumulator decides how
  many shots are fired, is embedded a second time with every `float` operation of the block
  rounded to IEEE 754 binary32 (`roundF32`, `fireLoopF32`, `shootingBlockF32`).
* Calls into raylib / libc that return data (`GetRandomValue`, `rand`, `IsKeyDown`,
  `IsKeyPressed`, `GetFrameTime`, `LoadTexture(...).width`, `sqrtf`, `cosf`, `sinf`) are explicit
  inputs of the functions that make them.
* The one place where a square root decides a branch, `Vector2Distance(a, b) < r`, is embedded
  as the equivalent comparison of squares (`Vector2DistanceLt`), which is decidable on `ℚ`;
  `Vector2DistanceLt_iff` relates it to the real square root.
* The `while` loop of the shooting block takes a fuel argument; a run that needs more
  iterations than the fuel allows is `none`.
* Rendering (`Draw`, textures as pictures) is left out.
-/

namespace Asteroids

/-! ## raymath vectors -/

/-- The raylib `Vector2`: a pair of floats. -/
structure Vector2 where
  x : ℚ
  y : ℚ
deriving DecidableEq, Repr

/-- The raymath `Vector2Add`. -/
def Vector2Add (v1 v2 : Vector2) : Vector2 := ⟨v1.x + v2.x, v1.y + v2.y⟩

/-- The raymath `Vector2Subtract`. -/
def Vector2Subtract (v1 v2 : Vector2) : Vector2 := ⟨v1.x - v2.x, v1.y - v2.y⟩

/-- The raymath `Vector2Scale`. -/
def Vector2Scale (v : Vector2) (scale : ℚ) : Vector2 := ⟨v.x * scale, v.y * scale⟩

/-! ## Keyboard state of one frame -/

/-- What `IsKeyDown` / `IsKeyPressed` answer during one frame, for the keys the program reads. -/
structure Keys where
  downW : Bool
  downS : Bool
  downA : Bool
  downD : Bool
  downSPACE : Bool
  downLEFT : Bool
  downRIGHT : Bool
  pressedR : Bool
  pressedONE : Bool
  pressedTWO : Bool
  pressedTHREE : Bool
  pressedFOUR : Bool
  pressedZERO : Bool
  pressedTAB : Bool
deriving DecidableEq, Repr

/-- No key held, no key pressed. -/
def Keys.none : Keys :=
  ⟨false, false, false, false, false, false, false, false, false, false, false, false, false, false⟩

/-! ## Weapons -/

/-- The enum `WeaponType` without its `COUNT` sentinel. -/
inductive WeaponType where
  | LASER
  | BULLET
  | CRATE
deriving DecidableEq, Repr

/-! ## Ship -/

/-- The fields of `Ship` in declaration order, followed by the two data members `PlayerShip`
adds (`texture.width` as reported by `LoadTexture`, and `scale`). -/
structure Ship where
  position : Vector2
  hp : Int
  dmg_dealt : Int
  multiplier : ℚ
  speed : ℚ
  alive : Bool
  fireRateLaser : ℚ
  fireRateBullet : ℚ
  fireRateCrate : ℚ
  spacingLaser : ℚ
  spacingCrate : ℚ
  spacingBullet : ℚ
  textureWidth : Int
  scale : ℚ
deriving DecidableEq, Repr

namespace Ship

/-- The constructor `PlayerShip(w, h)`, which runs `Ship(w, h)` first; `textureWidth` is the
width of the texture `LoadTexture` returned. -/
def create (screenW screenH : Int) (textureWidth : Int) : Ship where
  position := ⟨(screenW : ℚ) * (1 / 2), (screenH : ℚ) * (1 / 2)⟩
  hp := 100
  dmg_dealt := 0
  speed := 250
  alive := true
  multiplier := 1 / 1000
  fireRateLaser := 5
  fireRateBullet := 15
  fireRateCrate := 3
  spacingLaser := 40
  spacingBullet := 20
  spacingCrate := 800
  textureWidth := textureWidth
  scale := 1 / 4

/-- The method `PlayerShip::Update`. -/
def Update (s : Ship) (keys : Keys) (dt : ℚ) : Ship :=
  if s.alive then
    let s1 := if keys.downW then { s with position := ⟨s.position.x, s.position.y - s.speed * dt⟩ } else s
    let s2 := if keys.downS then { s1 with position := ⟨s1.position.x, s1.position.y + s1.speed * dt⟩ } else s1
    let s3 := if keys.downA then { s2 with position := ⟨s2.position.x - s2.speed * dt, s2.position.y⟩ } else s2
    if keys.downD then { s3 with position := ⟨s3.position.x + s3.speed * dt, s3.position.y⟩ } else s3
  else
    { s with position := ⟨s.position.x, s.position.y + s.speed * dt⟩ }

/-- The method `Ship::TakeDamage`. -/
def TakeDamage (s : Ship) (dmg : Int) : Ship :=
  if !s.alive then s
  else
    let s1 := { s with hp := s.hp - dmg }
    if s1.hp ≤ 0 then { s1 with alive := false } else s1

/-- The method `Ship::GetFireRate`. -/
def GetFireRate (s : Ship) (wt : WeaponType) : ℚ :=
  if wt = WeaponType.LASER then s.fireRateLaser
  else if wt = WeaponType.CRATE then s.fireRateCrate
  else s.fireRateBullet

/-- The method `Ship::GetSpacing`. -/
def GetSpacing (s : Ship) (wt : WeaponType) : ℚ :=
  if wt = WeaponType.LASER then s.spacingLaser
  else if wt = WeaponType.CRATE then s.spacingCrate
  else s.spacingBullet

/-- The method `Ship::DealDamage`. -/
def DealDamage (s : Ship) (dmg : Int) (wt : WeaponType) : Ship :=
  let s1 := { s with dmg_dealt := s.dmg_dealt + dmg }
  if wt = WeaponType.LASER then
    { s1 with fireRateLaser := s1.GetFireRate wt + s1.multiplier * (s1.dmg_dealt : ℚ) }
  else
    { s1 with fireRateBullet := s1.GetFireRate wt + s1.multiplier * (s1.dmg_dealt : ℚ) }

/-- The method `Ship::IsAlive`. -/
def IsAlive (s : Ship) : Bool := s.alive

/-- The method `Ship::GetPosition`. -/
def GetPosition (s : Ship) : Vector2 := s.position

/-- The method `Ship::GetHP`. -/
def GetHP (s : Ship) : Int := s.hp

/-- The method `Ship::GetScore`. -/
def GetScore (s : Ship) : Int := s.dmg_dealt

/-- The method `PlayerShip::GetRadius`. -/
def GetRadius (s : Ship) : ℚ := ((s.textureWidth : ℚ) * s.scale) * (1 / 2)

end Ship

/-- One call on the ship made by the game loop. -/
inductive ShipCall where
  | takeDamage (dmg : Int)
  | dealDamage (dmg : Int) (wt : WeaponType)
  | update (keys : Keys) (dt : ℚ)

/-- Perform one call. -/
def ShipCall.run (c : ShipCall) (s : Ship) : Ship :=
  match c with
  | ShipCall.takeDamage dmg => s.TakeDamage dmg
  | ShipCall.dealDamage dmg wt => s.DealDamage dmg wt
  | ShipCall.update keys dt => s.Update keys dt

/-- Perform a sequence of calls, first call first. -/
def runCalls (cs : List ShipCall) (s : Ship) : Ship :=
  cs.foldl (fun acc c => c.run acc) s

/-! ## Renderer, libm -/

/-- The data members of the `Renderer` singleton that the simulation reads. -/
structure Renderer where
  screenW : Int
  screenH : Int
deriving DecidableEq, Repr

/-- The method `Renderer::Width`. -/
def Renderer.Width (r : Renderer) : Int := r.screenW

/-- The method `Renderer::Height`. -/
def Renderer.Height (r : Renderer) : Int := r.screenH

/-- The three `<cmath>` functions the program calls, as inputs. -/
structure Libm where
  sqrtf : ℚ → ℚ
  cosf : ℚ → ℚ
  sinf : ℚ → ℚ

/-- The raylib constant `PI`. -/
def PI : ℚ := 314159265358979323846 / 100000000000000000000

/-- The function `Utils::RandomFloat(min, max)`; `u` is the value of
`static_cast<float>(rand()) / RAND_MAX` in that call. -/
def Utils.RandomFloat (min max : ℚ) (u : ℚ) : ℚ := min + u * (max - min)

/-- The raymath `Vector2Normalize`; the square root is the one of `m`. -/
def Vector2Normalize (m : Libm) (v : Vector2) : Vector2 :=
  let length := m.sqrtf (v.x * v.x + v.y * v.y)
  if length > 0 then
    let ilength := 1 / length
    ⟨v.x * ilength, v.y * ilength⟩
  else ⟨0, 0⟩

/-! ## Asteroids -/

/-- The enum `Renderable::Size`. -/
inductive Size where
  | SMALL
  | MEDIUM
  | LARGE
deriving DecidableEq, Repr

/-- The integer value of a `Renderable::Size` enumerator. -/
def Size.toInt : Size → Int
  | Size.SMALL => 1
  | Size.MEDIUM => 2
  | Size.LARGE => 4

/-- The cast `static_cast<Renderable::Size>(1 << r)` for a draw `r` of `GetRandomValue(0, 2)`. -/
def Size.ofShift (r : Fin 3) : Size :=
  if r.val = 0 then Size.SMALL else if r.val = 1 then Size.MEDIUM else Size.LARGE

/-- The enum `AsteroidShape`. -/
inductive AsteroidShape where
  | TRIANGLE
  | SQUARE
  | PENTAGON
  | HEALING
  | RANDOM
deriving DecidableEq, Repr

/-- The cast `static_cast<AsteroidShape>(3 + r)` for a draw `r` of `GetRandomValue(0, 3)`. -/
def AsteroidShape.ofDraw (r : Fin 4) : AsteroidShape :=
  if r.val = 0 then AsteroidShape.TRIANGLE
  else if r.val = 1 then AsteroidShape.SQUARE
  else if r.val = 2 then AsteroidShape.PENTAGON
  else AsteroidShape.HEALING

/-- The data members of `Asteroid` (`transform`, `physics`, `render`, `baseDamage`). -/
structure Asteroid where
  position : Vector2
  rotation : ℚ
  velocity : Vector2
  rotationSpeed : ℚ
  size : Size
  baseDamage : Int
deriving DecidableEq, Repr

/-- The random values one run of `MakeAsteroid` consumes, in the order of the calls:
`shapeDraw` is the `GetRandomValue(0, 3)` of the factory (read only for `RANDOM`), `sizeDraw`
the `GetRandomValue(0, 2)` and `edgeDraw` the `GetRandomValue(0, 3)` of `init`, and each
`...U` is the value `rand() / RAND_MAX` of one `Utils::RandomFloat` call of `init`. -/
structure AsteroidDraws where
  shapeDraw : Fin 4
  sizeDraw : Fin 3
  edgeDraw : Fin 4
  edgeU : ℚ
  angU : ℚ
  radU : ℚ
  speedU : ℚ
  rotSpeedU : ℚ
  rotationU : ℚ
deriving DecidableEq, Repr

namespace Asteroid

/-- The constant `Asteroid::SPEED_MIN`. -/
def SPEED_MIN : ℚ := 125
/-- The constant `Asteroid::SPEED_MAX`. -/
def SPEED_MAX : ℚ := 250
/-- The constant `Asteroid::ROT_MIN`. -/
def ROT_MIN : ℚ := 50
/-- The constant `Asteroid::ROT_MAX`. -/
def ROT_MAX : ℚ := 240

/-- The expression of `Asteroid::GetRadius` for a given size. -/
def radiusOfSize (sz : Size) : ℚ := 32 + 15 * (sz.toInt : ℚ)

/-- The method `Asteroid::GetRadius`. -/
def GetRadius (a : Asteroid) : ℚ := radiusOfSize a.size

/-- The method `Asteroid::GetPosition`. -/
def GetPosition (a : Asteroid) : Vector2 := a.position

/-- The method `Asteroid::GetDamage`. -/
def GetDamage (a : Asteroid) : Int := a.baseDamage * a.size.toInt

/-- The method `Asteroid::GetSize`. -/
def GetSize (a : Asteroid) : Int := a.size.toInt

/-- The method `Asteroid::Update`: the advanced asteroid and the returned flag. -/
def Update (r : Renderer) (a : Asteroid) (dt : ℚ) : Asteroid × Bool :=
  let a1 := { a with position := Vector2Add a.position (Vector2Scale a.velocity dt) }
  let a2 := { a1 with rotation := a1.rotation + a1.rotationSpeed * dt }
  if a2.position.x < -a2.GetRadius ∨ a2.position.x > (r.Width : ℚ) + a2.GetRadius ∨
      a2.position.y < -a2.GetRadius ∨ a2.position.y > (r.Height : ℚ) + a2.GetRadius then
    (a2, false)
  else (a2, true)

/-- The method `Asteroid::init`, run by the base constructor; `baseDamage` still has its
default member initialiser `0`. -/
def init (m : Libm) (screenW screenH : Int) (d : AsteroidDraws) : Asteroid :=
  let size := Size.ofShift d.sizeDraw
  let radius := radiusOfSize size
  let position : Vector2 :=
    if d.edgeDraw.val = 0 then ⟨Utils.RandomFloat 0 (screenW : ℚ) d.edgeU, -radius⟩
    else if d.edgeDraw.val = 1 then ⟨(screenW : ℚ) + radius, Utils.RandomFloat 0 (screenH : ℚ) d.edgeU⟩
    else if d.edgeDraw.val = 2 then ⟨Utils.RandomFloat 0 (screenW : ℚ) d.edgeU, (screenH : ℚ) + radius⟩
    else ⟨-radius, Utils.RandomFloat 0 (screenH : ℚ) d.edgeU⟩
  let maxOff := min (screenW : ℚ) (screenH : ℚ) * (1 / 10)
  let ang := Utils.RandomFloat 0 (2 * PI) d.angU
  let rad := Utils.RandomFloat 0 maxOff d.radU
  let center : Vector2 := ⟨(screenW : ℚ) * (1 / 2) + m.cosf ang * rad, (screenH : ℚ) * (1 / 2) + m.sinf ang * rad⟩
  let dir := Vector2Normalize m (Vector2Subtract center position)
  { position := position
    rotation := Utils.RandomFloat 0 360 d.rotationU
    velocity := Vector2Scale dir (Utils.RandomFloat SPEED_MIN SPEED_MAX d.speedU)
    rotationSpeed := Utils.RandomFloat ROT_MIN ROT_MAX d.rotSpeedU
    size := size
    baseDamage := 0 }

end Asteroid

/-- The constructors of the four concrete classes: `Asteroid(w, h)` followed by the
assignment of `baseDamage` (5, 10, 15 and -2). -/
def makeVariant (m : Libm) (w h : Int) (baseDamage : Int) (d : AsteroidDraws) : Asteroid :=
  { Asteroid.init m w h d with baseDamage := baseDamage }

/-- The factory `MakeAsteroid`; the `default` branch calls the factory once more with the
drawn shape, which is one of the four concrete ones. -/
def MakeAsteroid (m : Libm) (w h : Int) (shape : AsteroidShape) (d : AsteroidDraws) : Asteroid :=
  let concrete (sh : AsteroidShape) : Asteroid :=
    match sh with
    | AsteroidShape.TRIANGLE => makeVariant m w h 5 d
    | AsteroidShape.SQUARE => makeVariant m w h 10 d
    | AsteroidShape.PENTAGON => makeVariant m w h 15 d
    | _ => makeVariant m w h (-2) d
  match shape with
  | AsteroidShape.RANDOM => concrete (AsteroidShape.ofDraw d.shapeDraw)
  | sh => concrete sh

/-- The concrete class `MakeAsteroid` instantiates: the requested shape, or for `RANDOM` the
shape drawn in the `default` branch. -/
def builtShape (shape : AsteroidShape) (d : AsteroidDraws) : AsteroidShape :=
  if shape = AsteroidShape.RANDOM then AsteroidShape.ofDraw d.shapeDraw else shape

/-! ## Projectiles -/

/-- The data members of `Projectile` that the simulation reads (`transform.position`,
`physics.velocity`, `baseDamage`, `type`). -/
structure Projectile where
  position : Vector2
  velocity : Vector2
  baseDamage : Int
  type : WeaponType
deriving DecidableEq, Repr

namespace Projectile

/-- The method `Projectile::Update`: the advanced projectile and the returned flag
(`true` asks the caller to remove it). -/
def Update (r : Renderer) (keys : Keys) (p : Projectile) (dt : ℚ) : Projectile × Bool :=
  let p1 : Projectile := { p with position := Vector2Add p.position (Vector2Scale p.velocity dt) }
  let p2 : Projectile :=
    if p1.type = WeaponType.LASER then
      let q1 : Projectile := if keys.downLEFT then
          { p1 with position := Vector2Add p1.position (Vector2Scale ⟨p1.velocity.y, p1.velocity.x⟩ dt) }
        else p1
      if keys.downRIGHT then
        { q1 with position := Vector2Subtract q1.position (Vector2Scale ⟨q1.velocity.y, q1.velocity.x⟩ dt) }
      else q1
    else if p1.type = WeaponType.CRATE then
      { p1 with position := Vector2Subtract p1.position (Vector2Scale p1.velocity dt) }
    else p1
  if p2.position.x < 0 ∨ p2.position.x > (r.Width : ℚ) ∨
      p2.position.y < 0 ∨ p2.position.y > (r.Height : ℚ) then
    (p2, true)
  else (p2, false)

/-- The method `Projectile::GetPosition`. -/
def GetPosition (p : Projectile) : Vector2 := p.position

/-- The method `Projectile::GetRadius`. -/
def GetRadius (p : Projectile) : ℚ :=
  if p.type = WeaponType.BULLET then 5 else if p.type = WeaponType.CRATE then 100 else 20

/-- The method `Projectile::GetDamage`. -/
def GetDamage (p : Projectile) : Int := p.baseDamage

end Projectile

/-- The factory `MakeProjectile`. -/
def MakeProjectile (wt : WeaponType) (pos : Vector2) (speed : ℚ) : Projectile :=
  let vel : Vector2 := ⟨0, -speed⟩
  if wt = WeaponType.LASER then ⟨pos, vel, 20, wt⟩
  else if wt = WeaponType.CRATE then ⟨pos, vel, 50, wt⟩
  else ⟨pos, vel, 10, wt⟩

/-! ## The game loop `Application::Run` -/

/-- The constant `Application::C_WIDTH`. -/
def C_WIDTH : Int := 800
/-- The constant `Application::C_HEIGHT`. -/
def C_HEIGHT : Int := 800
/-- The constant `Application::MAX_AST`. -/
def MAX_AST : Nat := 150
/-- The constant `Application::C_SPAWN_MIN`. -/
def C_SPAWN_MIN : ℚ := 1 / 2
/-- The constant `Application::C_SPAWN_MAX`. -/
def C_SPAWN_MAX : ℚ := 3

/-- The renderer after `Init(C_WIDTH, C_HEIGHT, ...)`. -/
def Renderer.game : Renderer := ⟨C_WIDTH, C_HEIGHT⟩

/-- The test `Vector2Distance(v1, v2) < bound`, where raymath computes
`Vector2Distance(v1, v2) = sqrtf((v1.x - v2.x)*(v1.x - v2.x) + (v1.y - v2.y)*(v1.y - v2.y))`.
The square root is eliminated: a square root is below `bound` exactly when `bound` is
positive and the radicand is below `bound * bound`. -/
def Vector2DistanceLt (v1 v2 : Vector2) (bound : ℚ) : Bool :=
  decide (0 < bound ∧
    (v1.x - v2.x) * (v1.x - v2.x) + (v1.y - v2.y) * (v1.y - v2.y) < bound * bound)

/-- The collision test of the projectile-asteroid loop:
`Vector2Distance(pit.GetPosition(), ait.GetPosition()) < pit.GetRadius() + ait.GetRadius()`. -/
def projectileHits (p : Projectile) (a : Asteroid) : Bool :=
  Vector2DistanceLt p.GetPosition a.GetPosition (p.GetRadius + a.GetRadius)

/-- The collision test of the asteroid-ship pass:
`Vector2Distance(player.GetPosition(), asteroid.GetPosition()) < player.GetRadius() + asteroid.GetRadius()`. -/
def shipHits (player : Ship) (a : Asteroid) : Bool :=
  Vector2DistanceLt player.GetPosition a.GetPosition (player.GetRadius + a.GetRadius)

/-- The conversion of a `float` argument to an `int` parameter: truncation toward zero. -/
def floatToInt (q : ℚ) : Int := Int.tdiv q.num (q.den : Int)

/-- The libc `fmodf(x, y)`: `x` minus `y` times the truncated quotient. -/
def fmodf (x y : ℚ) : ℚ := x - (floatToInt (x / y) : ℚ) * y

/-- The local variables of `Application::Run` that live across frames, and the data members
of `Application`. -/
structure Session where
  player : Ship
  asteroids : List Asteroid
  projectiles : List Projectile
  currentShape : AsteroidShape
  spawnTimer : ℚ
  spawnInterval : ℚ
  currentWeapon : WeaponType
  shotTimer : ℚ
  highscore : Int

/-- What the outside world feeds one iteration of the `while` loop: the frame time, the
keyboard, and the random values. `restartU` and `spawnU` are the `rand() / RAND_MAX` of the
two `Utils::RandomFloat(C_SPAWN_MIN, C_SPAWN_MAX)` calls, `spawnDraws` the draws of the
`MakeAsteroid` of the spawn block, and `splitDraws k` the draws of the `k`-th `MakeAsteroid`
call of the projectile-asteroid loop in this frame. -/
structure Frame where
  dt : ℚ
  keys : Keys
  restartU : ℚ
  spawnU : ℚ
  spawnDraws : AsteroidDraws
  splitDraws : Nat → AsteroidDraws

/-- The state before the first iteration: `u0` is the `rand() / RAND_MAX` of the first
`Utils::RandomFloat(C_SPAWN_MIN, C_SPAWN_MAX)`. -/
def Session.initial (textureWidth : Int) (u0 : ℚ) : Session where
  player := Ship.create C_WIDTH C_HEIGHT textureWidth
  asteroids := []
  projectiles := []
  currentShape := AsteroidShape.RANDOM
  spawnTimer := 0
  spawnInterval := Utils.RandomFloat C_SPAWN_MIN C_SPAWN_MAX u0
  currentWeapon := WeaponType.LASER
  shotTimer := 0
  highscore := 0

/-- The block `// Restart logic`. The new `PlayerShip` loads the same texture file, so it has
the width of the old one. -/
def restartBlock (f : Frame) (s : Session) : Session :=
  if !s.player.IsAlive && f.keys.pressedR then
    let highscore := if s.player.GetScore > s.highscore then s.player.GetScore else s.highscore
    { s with
      highscore := highscore
      player := Ship.create C_WIDTH C_HEIGHT s.player.textureWidth
      asteroids := []
      projectiles := []
      spawnTimer := 0
      spawnInterval := Utils.RandomFloat C_SPAWN_MIN C_SPAWN_MAX f.restartU }
  else s

/-- The block `// Asteroid shape switch`: five `if`s in a row, a later one overrides. -/
def shapeSwitch (keys : Keys) (shape : AsteroidShape) : AsteroidShape :=
  let s1 := if keys.pressedONE then AsteroidShape.TRIANGLE else shape
  let s2 := if keys.pressedTWO then AsteroidShape.SQUARE else s1
  let s3 := if keys.pressedTHREE then AsteroidShape.PENTAGON else s2
  let s4 := if keys.pressedFOUR then AsteroidShape.HEALING else s3
  if keys.pressedZERO then AsteroidShape.RANDOM else s4

/-- The expression `(currentWeapon + 1) % COUNT` of the block `// Weapon switch`. -/
def WeaponType.next : WeaponType → WeaponType
  | WeaponType.LASER => WeaponType.BULLET
  | WeaponType.BULLET => WeaponType.CRATE
  | WeaponType.CRATE => WeaponType.LASER

/-- The block `// Weapon switch`. -/
def weaponSwitch (keys : Keys) (w : WeaponType) : WeaponType :=
  if keys.pressedTAB then w.next else w

/-- The loop `while (shotTimer >= interval) { ... }` of the shooting block, run for at most
`fuel + 1` evaluations of its condition; `none` when the condition still holds after that.
The arithmetic is exact; `fireLoopF32` is the same loop in binary32. -/
def fireLoop (player : Ship) (currentWeapon : WeaponType) (interval projSpeed : ℚ) :
    Nat → ℚ → List Projectile → Option (ℚ × List Projectile)
  | 0, shotTimer, projectiles =>
    if shotTimer ≥ interval then none else some (shotTimer, projectiles)
  | fuel + 1, shotTimer, projectiles =>
    if shotTimer ≥ interval then
      let p : Vector2 := ⟨player.GetPosition.x, player.GetPosition.y - player.GetRadius⟩
      fireLoop player currentWeapon interval projSpeed fuel (shotTimer - interval)
        (projectiles ++ [MakeProjectile currentWeapon p projSpeed])
    else some (shotTimer, projectiles)

/-- The block `// Shooting`: the new `shotTimer` and `projectiles`. -/
def shootingBlock (fuel : Nat) (player : Ship) (currentWeapon : WeaponType) (keys : Keys)
    (dt : ℚ) (shotTimer : ℚ) (projectiles : List Projectile) :
    Option (ℚ × List Projectile) :=
  if player.IsAlive && keys.downSPACE then
    let shotTimer1 := shotTimer + dt
    let interval := 1 / player.GetFireRate currentWeapon
    let projSpeed := player.GetSpacing currentWeapon * player.GetFireRate currentWeapon
    fireLoop player currentWeapon interval projSpeed fuel shotTimer1 projectiles
  else
    let maxInterval := 1 / player.GetFireRate currentWeapon
    if shotTimer > maxInterval then some (fmodf shotTimer maxInterval, projectiles)
    else some (shotTimer, projectiles)

/-- The block `// Spawn asteroids`. -/
def spawnBlock (m : Libm) (f : Frame) (s : Session) : Session :=
  if s.spawnTimer ≥ s.spawnInterval ∧ s.asteroids.length < MAX_AST then
    { s with
      asteroids := s.asteroids ++ [MakeAsteroid m C_WIDTH C_HEIGHT s.currentShape f.spawnDraws]
      spawnTimer := 0
      spawnInterval := Utils.RandomFloat C_SPAWN_MIN C_SPAWN_MAX f.spawnU }
  else s

/-- The block `// Update projectiles`: `remove_if` with `Projectile::Update` as predicate,
then `erase`. -/
def updateProjectiles (r : Renderer) (keys : Keys) (dt : ℚ) :
    List Projectile → List Projectile
  | [] => []
  | p :: ps =>
    let res := Projectile.Update r keys p dt
    if res.2 then updateProjectiles r keys dt ps
    else res.1 :: updateProjectiles r keys dt ps

/-- The inner `for` loop of the projectile-asteroid block up to its `if`: the position in the
vector and the value of the first asteroid the projectile is in range of. -/
def firstHit (p : Projectile) : List Asteroid → Option (Nat × Asteroid)
  | [] => none
  | a :: rest =>
    if projectileHits p a then some (0, a)
    else (firstHit p rest).map (fun r => (r.1 + 1, r.2))

/-- What the projectile-asteroid block carries from one projectile to the next: the player,
the asteroid vector, and the number of `MakeAsteroid` calls made so far in this frame. -/
structure HitState where
  player : Ship
  asteroids : List Asteroid
  calls : Nat

/-- The body of the `if (dist < ...)` of the projectile-asteroid block for the asteroid `a` at
index `i`: score the damage, push two new asteroids when the score is above 500 and not a
multiple of 5, erase the asteroid. The two `MakeAsteroid` calls receive the position of `a`
as their `int w, int h` parameters. The iterator `ait` is read as the index `i`: the two
`push_back` calls are taken to leave the elements in place, so that `erase(ait)` removes the
asteroid that was hit. -/
def resolveHit (m : Libm) (shape : AsteroidShape) (weapon : WeaponType)
    (draws : Nat → AsteroidDraws) (i : Nat) (a : Asteroid) (st : HitState) : HitState :=
  let player := st.player.DealDamage a.GetDamage weapon
  if player.GetScore > 500 ∧ Int.tmod player.GetScore 5 ≠ 0 then
    let n1 := MakeAsteroid m (floatToInt a.GetPosition.x) (floatToInt a.GetPosition.y) shape
      (draws st.calls)
    let n2 := MakeAsteroid m (floatToInt a.GetPosition.x) (floatToInt a.GetPosition.y) shape
      (draws (st.calls + 1))
    ⟨player, ((st.asteroids ++ [n1]) ++ [n2]).eraseIdx i, st.calls + 2⟩
  else
    ⟨player, st.asteroids.eraseIdx i, st.calls⟩

/-- The block `// Projectile-Asteroid collisions`: the projectiles that stay, and the player
and asteroids after the block. A projectile that hits is erased and the loop goes on with the
one after it. -/
def collideProjectiles (m : Libm) (shape : AsteroidShape) (weapon : WeaponType)
    (draws : Nat → AsteroidDraws) : List Projectile → HitState → List Projectile × HitState
  | [], st => ([], st)
  | p :: ps, st =>
    match firstHit p st.asteroids with
    | some (i, a) =>
      collideProjectiles m shape weapon draws ps (resolveHit m shape weapon draws i a st)
    | none =>
      let res := collideProjectiles m shape weapon draws ps st
      (p :: res.1, res.2)

/-- The block `// Asteroid-Ship collisions`: `remove_if` with the lambda `remove_collision`
as predicate, applied to the asteroids in order, then `erase`. -/
def collideShip (r : Renderer) (dt : ℚ) : List Asteroid → Ship → List Asteroid × Ship
  | [], player => ([], player)
  | a :: rest, player =>
    if player.IsAlive && shipHits player a then
      collideShip r dt rest (player.TakeDamage a.GetDamage)
    else
      let upd := Asteroid.Update r a dt
      let res := collideShip r dt rest player
      if !upd.2 then res else (upd.1 :: res.1, res.2)

/-- One iteration of the `while (!WindowShouldClose())` loop, rendering left out. -/
def step (m : Libm) (fuel : Nat) (f : Frame) (s : Session) : Option Session :=
  let s1 := { s with spawnTimer := s.spawnTimer + f.dt, player := s.player.Update f.keys f.dt }
  let s2 := restartBlock f s1
  let s3 := { s2 with
    currentShape := shapeSwitch f.keys s2.currentShape
    currentWeapon := weaponSwitch f.keys s2.currentWeapon }
  match shootingBlock fuel s3.player s3.currentWeapon f.keys f.dt s3.shotTimer s3.projectiles with
  | none => none
  | some (shotTimer, projectiles) =>
    let s4 := { s3 with shotTimer := shotTimer, projectiles := projectiles }
    let s5 := spawnBlock m f s4
    let s6 := { s5 with projectiles := updateProjectiles Renderer.game f.keys f.dt s5.projectiles }
    let hit := collideProjectiles m s6.currentShape s6.currentWeapon f.splitDraws s6.projectiles
      ⟨s6.player, s6.asteroids, 0⟩
    let ship := collideShip Renderer.game f.dt hit.2.asteroids hit.2.player
    some { s6 with projectiles := hit.1, asteroids := ship.1, player := ship.2 }

/-- Run the loop over a list of frames, first frame first. -/
def run (m : Libm) (fuel : Nat) : List Frame → Session → Option Session
  | [], s => some s
  | f :: fs, s =>
    match step m fuel f s with
    | none => none
    | some s1 => run m fuel fs s1

/-- Round to the nearest integer, a tie to the even one. -/
def roundHalfEven (x : ℚ) : Int :=
  let f := ⌊x⌋
  let r := x - (f : ℚ)
  if r < 1 / 2 then f else if 1 / 2 < r then f + 1 else if f % 2 = 0 then f else f + 1

/-- Halving `n` until it is below 2, at most `fuel` times: the number of halvings. -/
def log2Fuel : Nat → Nat → Nat
  | 0, _ => 0
  | fuel + 1, n => if n < 2 then 0 else log2Fuel fuel (n / 2) + 1

/-- The position of the leading bit of `n`, that is `⌊log₂ n⌋` for `n ≥ 1`. -/
def log2Floor (n : Nat) : Nat := log2Fuel n n

/-- Calls of `Asteroid::Update` one after the other with the frame times `dts`: the asteroid
after the last call and the flag the last call returned (`true` when there is no call). -/
def Asteroid.UpdateAll (r : Renderer) (a : Asteroid) (dts : List ℚ) : Asteroid × Bool :=
  dts.foldl (fun st dt => Asteroid.Update r st.1 dt) (a, true)

/-! ## Concrete inputs used in the examples -/

/-- A rational stand-in for `<cmath>`: `sqrtf` is exact on squares of rationals, and `cosf`,
`sinf` are exact at angle 0, which are the only arguments the examples pass. -/
def Libm.sample : Libm where
  sqrtf := Rat.sqrt
  cosf := fun x => 1 - x * x / 2
  sinf := fun x => x

/-- Draws of one `MakeAsteroid` run: size draw `k`, top edge, middle of the edge, aim at the
exact screen centre, slowest speed and spin. -/
def AsteroidDraws.top (k : Fin 3) : AsteroidDraws where
  shapeDraw := 0
  sizeDraw := k
  edgeDraw := 0
  edgeU := 1 / 2
  angU := 0
  radU := 0
  speedU := 0
  rotSpeedU := 0
  rotationU := 0

/-- The player of a new session on the 800 x 800 window, with a 400 pixel wide texture
(radius 50). -/
def Ship.fresh : Ship := Ship.create 800 800 400

/-- Draws of one `MakeAsteroid` run: size draw `k`, top edge, at the fraction `u` of the edge,
aim at the exact centre, slowest speed and spin. -/
def AsteroidDraws.topAt (k : Fin 3) (u : ℚ) : AsteroidDraws :=
  { AsteroidDraws.top k with edgeU := u }

/-! ### A session that grows past `MAX_AST`

Thirteen frames from the first iteration on. After a first frame of no duration the player
moves to `(525, 100)` and cycles to the crate weapon (`frameMove1`, `frameMove2`,
`frameStock`); the long frame `frameStock`, with the fire key held, stocks 180 crate
projectiles, which do not move, at `(525, 50)`, and shoots a healing obstacle; nine frames of
half a second each spawn a large pentagon obstacle at `(525, -92)`, in range of the stock
(`frameSpawn`). In the ninth of them the score passes 500 and every remaining projectile
splits an obstacle in two. No key is pressed (as opposed to held) in two frames in a row. -/

/-- First iteration: no time has passed, no key. -/
def frameFirst : Frame where
  dt := 0
  keys := Keys.none
  restartU := 0
  spawnU := 0
  spawnDraws := AsteroidDraws.topAt 0 (21 / 32)
  splitDraws := fun _ => AsteroidDraws.topAt 2 1

/-- Half a second with `W` and `D` held and `TAB` pressed. -/
def frameMove1 : Frame :=
  { frameFirst with
    dt := 1 / 2
    keys := { Keys.none with downW := true, downD := true, pressedTAB := true } }

/-- Then 0.7 seconds with `W` held. -/
def frameMove2 : Frame :=
  { frameFirst with dt := 7 / 10, keys := { Keys.none with downW := true } }

/-- Then 60 seconds with the fire key held and `TAB` and `4` (healing shape) pressed; the
obstacle spawned is of size class 1 at `(525, -47)`. -/
def frameStock : Frame :=
  { frameFirst with
    dt := 60
    keys := { Keys.none with downSPACE := true, pressedTAB := true, pressedFOUR := true } }

/-- Every later frame: half a second, with `3` (pentagon shape) pressed when `three` is set;
the obstacle spawned is of size class 4 at `(525, -92)`, and every obstacle made by a split is
of size class 4 on the top edge of its `int w, int h` rectangle, at its right end. -/
def frameSpawn (three : Bool) : Frame :=
  { frameFirst with
    dt := 1 / 2
    keys := { Keys.none with pressedTHREE := three }
    spawnDraws := AsteroidDraws.topAt 2 (21 / 32) }

/-- The thirteen frames. -/
def growthFrames : List Frame :=
  [frameFirst, frameMove1, frameMove2, frameStock, frameSpawn true]
    ++ List.replicate 8 (frameSpawn false)

/-- The crate projectile fired by a player at `(525, 100)` with radius 50. -/
def stockProjectile : Projectile := MakeProjectile WeaponType.CRATE ⟨525, 50⟩ 2400

/-- The obstacle every split of the run makes. -/
def splitAsteroid : Asteroid :=
  MakeAsteroid Libm.sample 525 (-92) AsteroidShape.PENTAGON (AsteroidDraws.topAt 2 1)

/-- The player of the run standing at `(525, 100)`, before any hit. -/
def stockPlayer : Ship := { Ship.create C_WIDTH C_HEIGHT 400 with position := ⟨525, 100⟩ }

/-- The session between two frames of the run: `n` stocked projectiles, no obstacle. -/
def stockSession (player : Ship) (n : Nat) (shape : AsteroidShape) : Session where
  player := player
  asteroids := []
  projectiles := List.replicate n stockProjectile
  currentShape := shape
  spawnTimer := 0
  spawnInterval := 1 / 2
  currentWeapon := WeaponType.CRATE
  shotTimer := 0
  highscore := 0

/-- A size class 1 triangle obstacle in the upper half of the screen, at `(400, 300)`. -/
def midAsteroid : Asteroid := ⟨⟨400, 300⟩, 0, ⟨0, 125⟩, 50, Size.SMALL, 5⟩

/-- A size class 4 pentagon obstacle (damage 60) at `(525, -92)`, in range of
`stockProjectile`. -/
def edgeAsteroid : Asteroid := ⟨⟨525, -92⟩, 0, ⟨0, 125⟩, 50, Size.LARGE, 15⟩

/-- The fresh ship after projectile hits on obstacles with the damages `dmgs`, all with the
weapon `wt`. -/
def scoredShip (dmgs : List Int) (wt : WeaponType) : Ship :=
  runCalls (dmgs.map (fun d => ShipCall.dealDamage d wt)) Ship.fresh

/-- The body of the `if` of the block `// Restart logic`, as `restartBlock` runs it. -/
def resetSession (f : Frame) (s : Session) : Session :=
  { s with
    highscore := if s.player.GetScore > s.highscore then s.player.GetScore else s.highscore
    player := Ship.create C_WIDTH C_HEIGHT s.player.textureWidth
    asteroids := []
    projectiles := []
    spawnTimer := 0
    spawnInterval := Utils.RandomFloat C_SPAWN_MIN C_SPAWN_MAX f.restartU }

/-- A session at game over: the player of `scoredShip` after a fatal collision, one obstacle
and one projectile left, an earlier high score of 50. -/
def gameOverSession : Session where
  player := (scoredShip [60, 60] WeaponType.LASER).TakeDamage 100
  asteroids := [midAsteroid]
  projectiles := [MakeProjectile WeaponType.LASER ⟨400, 300⟩ 200]
  currentShape := AsteroidShape.RANDOM
  spawnTimer := 2
  spawnInterval := 3
  currentWeapon := WeaponType.LASER
  shotTimer := 1 / 10
  highscore := 50

/-- A frame of 1/60 s in which only `R` is pressed; the spawn interval draw is `u`. -/
def frameRestart (u : ℚ) : Frame where
  dt := 1 / 60
  keys := { Keys.none with pressedR := true }
  restartU := u
  spawnU := 0
  spawnDraws := AsteroidDraws.top 0
  splitDraws := fun _ => AsteroidDraws.top 0

/-- A frame of 1/4 s in which `R` is pressed while the fire key is held. -/
def frameRestartFire : Frame where
  dt := 1 / 4
  keys := { Keys.none with pressedR := true, downSPACE := true }
  restartU := 1 / 2
  spawnU := 0
  spawnDraws := AsteroidDraws.top 0
  splitDraws := fun _ => AsteroidDraws.top 0

/-- A size class 1 triangle obstacle (radius 47, damage 5) at `(400, 430)`, 30 pixels from
the fresh player. -/
def nearAsteroid : Asteroid := ⟨⟨400, 430⟩, 0, ⟨0, -125⟩, 50, Size.SMALL, 5⟩

end Asteroids

/-! # Checked properties -/

namespace Asteroids

/-! ## Ship: damage taken, damage dealt -/

theorem Ship.TakeDamage_of_dead (s : Ship) (dmg : Int) (h : s.alive = false) :
    s.TakeDamage dmg = s := by
  simp [Ship.TakeDamage, h]

theorem Ship.TakeDamage_of_alive (s : Ship) (dmg : Int) (h : s.alive = true) :
    s.TakeDamage dmg = { s with hp := s.hp - dmg, alive := !decide (s.hp - dmg ≤ 0) } := by
  unfold Ship.TakeDamage
  by_cases h0 : s.hp - dmg ≤ 0
  · simp [h, h0]
  · simp only [h, h0, Bool.not_true, Bool.false_eq_true, if_false, decide_False, Bool.not_false]

theorem Ship.DealDamage_alive (s : Ship) (dmg : Int) (wt : WeaponType) :
    (s.DealDamage dmg wt).alive = s.alive := by
  unfold Ship.DealDamage
  split <;> rfl

theorem Ship.Update_alive (s : Ship) (keys : Keys) (dt : ℚ) :
    (s.Update keys dt).alive = s.alive := by
  unfold Ship.Update
  cases h : s.alive <;> cases keys.downW <;> cases keys.downS <;> cases keys.downA <;>
    cases keys.downD <;> simp [h]

theorem ShipCall.run_dead (c : ShipCall) (s : Ship) (h : s.alive = false) :
    (c.run s).alive = false := by
  cases c with
  | takeDamage dmg => simp [ShipCall.run, Ship.TakeDamage_of_dead s dmg h, h]
  | dealDamage dmg wt => simp [ShipCall.run, Ship.DealDamage_alive, h]
  | update keys dt => simp [ShipCall.run, Ship.Update_alive, h]

theorem runCalls_dead (cs : List ShipCall) (s : Ship) (h : s.alive = false) :
    (runCalls cs s).alive = false := by
  induction cs generalizing s with
  | nil => simpa [runCalls] using h
  | cons c cs ih =>
    have := ih (c.run s) (ShipCall.run_dead c s h)
    simpa [runCalls] using this

/-- C1. `Ship::TakeDamage` leaves a ship that is not alive unchanged; on an alive ship it sets
the health to `hp - dmg`, clears the alive flag exactly when that new health is `≤ 0`, and
changes nothing else. No sequence of `TakeDamage`, `DealDamage` and `Update` calls brings a
ship that is not alive back to alive. -/
theorem TakeDamage_contract (s : Ship) (dmg : Int) :
    (s.alive = false → s.TakeDamage dmg = s) ∧
    (s.alive = true →
      s.TakeDamage dmg = { s with hp := s.hp - dmg, alive := !decide (s.hp - dmg ≤ 0) }) ∧
    (∀ cs : List ShipCall, s.alive = false → (runCalls cs s).alive = false) :=
  ⟨Ship.TakeDamage_of_dead s dmg, Ship.TakeDamage_of_alive s dmg, fun cs h => runCalls_dead cs s h⟩

/-- C1, instance: 30 damage on the fresh ship leaves 70 health and nothing else changed; a ship
killed by 100 damage ignores further damage and stays not alive through healing, scoring and
moving. -/
theorem TakeDamage_contract_witness :
    (Ship.fresh.TakeDamage 100).TakeDamage 5 = Ship.fresh.TakeDamage 100 ∧
    Ship.fresh.TakeDamage 30 = { Ship.fresh with hp := 70 } ∧
    (runCalls [ShipCall.takeDamage (-8), ShipCall.dealDamage 5 WeaponType.LASER,
      ShipCall.update Keys.none 1] (Ship.fresh.TakeDamage 100)).alive = false := by
  have hdead : (Ship.fresh.TakeDamage 100).alive = false := by
    simp [Ship.TakeDamage, Ship.fresh, Ship.create]
  refine ⟨(TakeDamage_contract (Ship.fresh.TakeDamage 100) 5).1 hdead, ?_,
    (TakeDamage_contract (Ship.fresh.TakeDamage 100) 0).2.2 _ hdead⟩
  rw [(TakeDamage_contract Ship.fresh 30).2.1 rfl]
  simp [Ship.fresh, Ship.create]

/-! ## Damage of the obstacles the factory builds -/

theorem Size.toInt_pos (sz : Size) : 0 < sz.toInt := by
  cases sz <;> decide

/-- The base damage the factory gives an obstacle of the requested shape; for `RANDOM` the
shape is the drawn one. -/
theorem MakeAsteroid_GetDamage (m : Libm) (w h : Int) (shape : AsteroidShape) (d : AsteroidDraws) :
    (MakeAsteroid m w h shape d).size = Size.ofShift d.sizeDraw ∧
    (MakeAsteroid m w h shape d).GetDamage =
      (match builtShape shape d with
        | AsteroidShape.TRIANGLE => 5
        | AsteroidShape.SQUARE => 10
        | AsteroidShape.PENTAGON => 15
        | _ => -2) * (Size.ofShift d.sizeDraw).toInt := by
  unfold builtShape
  cases shape
  case RANDOM =>
    simp only [MakeAsteroid, if_true]
    generalize AsteroidShape.ofDraw d.shapeDraw = sh
    cases sh <;> simp [makeVariant, Asteroid.init, Asteroid.GetDamage]
  all_goals simp [MakeAsteroid, makeVariant, Asteroid.init, Asteroid.GetDamage]

theorem Ship.TakeDamage_hp (s : Ship) (dmg : Int) (h : s.alive = true) :
    (s.TakeDamage dmg).hp = s.hp - dmg := by
  rw [Ship.TakeDamage_of_alive s dmg h]

theorem Ship.DealDamage_score (s : Ship) (dmg : Int) (wt : WeaponType) :
    (s.DealDamage dmg wt).GetScore = s.GetScore + dmg := by
  unfold Ship.DealDamage Ship.GetScore
  split <;> rfl

/-- C2, as stated, fails: a `HEALING` obstacle of size class 1 built by the factory has damage
`-2`, and its collision with the fresh (alive, 100 health) ship leaves 102 health. -/
theorem healing_collision_raises_health :
    Ship.fresh.alive = true ∧ Ship.fresh.hp = 100 ∧
    (MakeAsteroid Libm.sample 800 800 AsteroidShape.HEALING (AsteroidDraws.top 0)).GetDamage = -2 ∧
    (Ship.fresh.TakeDamage
      (MakeAsteroid Libm.sample 800 800 AsteroidShape.HEALING (AsteroidDraws.top 0)).GetDamage).hp
      = 102 := by
  have hd : (MakeAsteroid Libm.sample 800 800 AsteroidShape.HEALING (AsteroidDraws.top 0)).GetDamage
      = -2 := by
    rw [(MakeAsteroid_GetDamage _ _ _ _ _).2]
    simp [builtShape, AsteroidDraws.top, Size.ofShift, Size.toInt]
  refine ⟨rfl, rfl, hd, ?_⟩
  rw [hd, Ship.TakeDamage_hp _ _ rfl]
  rfl

/-- The shape drawn for `RANDOM` is one of the four concrete ones. -/
theorem builtShape_concrete (shape : AsteroidShape) (d : AsteroidDraws) :
    builtShape shape d = AsteroidShape.TRIANGLE ∨ builtShape shape d = AsteroidShape.SQUARE ∨
    builtShape shape d = AsteroidShape.PENTAGON ∨ builtShape shape d = AsteroidShape.HEALING := by
  unfold builtShape
  cases shape
  case RANDOM =>
    have hne : AsteroidShape.ofDraw d.shapeDraw ≠ AsteroidShape.RANDOM := by
      unfold AsteroidShape.ofDraw
      split
      · simp
      · split
        · simp
        · split <;> simp
    simp only [if_true]
    generalize AsteroidShape.ofDraw d.shapeDraw = sh at hne
    cases sh <;> simp at hne ⊢
  all_goals simp

/-- C2, amended: for an alive ship, the collision with an obstacle the factory built as
`TRIANGLE`, `SQUARE` or `PENTAGON` (requested or drawn, any size class, any draws) leaves the
health less than or equal to, in fact below, its previous value; the collision with an
obstacle built as `HEALING` raises the health by twice the size class. -/
theorem collision_health_by_variant (m : Libm) (w h : Int) (shape : AsteroidShape)
    (d : AsteroidDraws) (s : Ship) (hs : s.alive = true) :
    ((builtShape shape d = AsteroidShape.TRIANGLE ∨ builtShape shape d = AsteroidShape.SQUARE ∨
        builtShape shape d = AsteroidShape.PENTAGON) →
      (s.TakeDamage (MakeAsteroid m w h shape d).GetDamage).hp ≤ s.hp ∧
      (s.TakeDamage (MakeAsteroid m w h shape d).GetDamage).hp < s.hp) ∧
    (builtShape shape d = AsteroidShape.HEALING →
      (s.TakeDamage (MakeAsteroid m w h shape d).GetDamage).hp
        = s.hp + 2 * (MakeAsteroid m w h shape d).GetSize) := by
  have hpos := Size.toInt_pos (Size.ofShift d.sizeDraw)
  obtain ⟨hsz, hdmg⟩ := MakeAsteroid_GetDamage m w h shape d
  rw [Ship.TakeDamage_hp _ _ hs, hdmg]
  constructor
  · rintro (hb | hb | hb) <;> rw [hb] <;> simp only <;> omega
  · intro hb
    rw [hb]
    simp only [Asteroid.GetSize, hsz]
    omega

/-- C2, amended, instance: on the fresh ship a large `PENTAGON` costs health and a large
`HEALING` obstacle gives 8 health. -/
theorem collision_health_by_variant_witness :
    (Ship.fresh.TakeDamage
      (MakeAsteroid Libm.sample 800 800 AsteroidShape.PENTAGON (AsteroidDraws.top 2)).GetDamage).hp
      < Ship.fresh.hp ∧
    (Ship.fresh.TakeDamage
      (MakeAsteroid Libm.sample 800 800 AsteroidShape.HEALING (AsteroidDraws.top 2)).GetDamage).hp
      = Ship.fresh.hp +
        2 * (MakeAsteroid Libm.sample 800 800 AsteroidShape.HEALING (AsteroidDraws.top 2)).GetSize :=
  ⟨((collision_health_by_variant Libm.sample 800 800 AsteroidShape.PENTAGON (AsteroidDraws.top 2)
      Ship.fresh rfl).1 (Or.inr (Or.inr rfl))).2,
   (collision_health_by_variant Libm.sample 800 800 AsteroidShape.HEALING (AsteroidDraws.top 2)
      Ship.fresh rfl).2 rfl⟩

/-- C3, as stated, fails: the `DealDamage` call for a hit on a `HEALING` obstacle of size
class 1 takes the score of the fresh ship from 0 to -2. -/
theorem healing_hit_lowers_score :
    Ship.fresh.GetScore = 0 ∧
    (Ship.fresh.DealDamage
      (MakeAsteroid Libm.sample 800 800 AsteroidShape.HEALING (AsteroidDraws.top 0)).GetDamage
      WeaponType.LASER).GetScore = -2 := by
  refine ⟨rfl, ?_⟩
  rw [Ship.DealDamage_score, (MakeAsteroid_GetDamage _ _ _ _ _).2]
  simp [builtShape, AsteroidDraws.top, Size.ofShift, Size.toInt, Ship.GetScore, Ship.fresh,
    Ship.create]

/-- C3, amended: for every ship state and weapon, the `DealDamage` call made for a hit on an
obstacle the factory built as `TRIANGLE`, `SQUARE` or `PENTAGON` (requested or drawn, any size
class, any draws) leaves the score greater than or equal to its previous value; for an
obstacle built as `HEALING` it lowers the score by twice the size class. -/
theorem hit_score_by_variant (m : Libm) (w h : Int) (shape : AsteroidShape)
    (d : AsteroidDraws) (s : Ship) (wt : WeaponType) :
    ((builtShape shape d = AsteroidShape.TRIANGLE ∨ builtShape shape d = AsteroidShape.SQUARE ∨
        builtShape shape d = AsteroidShape.PENTAGON) →
      s.GetScore ≤ (s.DealDamage (MakeAsteroid m w h shape d).GetDamage wt).GetScore) ∧
    (builtShape shape d = AsteroidShape.HEALING →
      (s.DealDamage (MakeAsteroid m w h shape d).GetDamage wt).GetScore
        = s.GetScore - 2 * (MakeAsteroid m w h shape d).GetSize) := by
  have hpos := Size.toInt_pos (Size.ofShift d.sizeDraw)
  obtain ⟨hsz, hdmg⟩ := MakeAsteroid_GetDamage m w h shape d
  rw [Ship.DealDamage_score, hdmg]
  constructor
  · rintro (hb | hb | hb) <;> rw [hb] <;> simp only <;> omega
  · intro hb
    rw [hb]
    simp only [Asteroid.GetSize, hsz]
    omega

/-- C3, amended, instance: a medium `SQUARE` hit with the bullet weapon does not lower the
score of the fresh ship, a medium `HEALING` hit lowers it by 4. -/
theorem hit_score_by_variant_witness :
    Ship.fresh.GetScore ≤ (Ship.fresh.DealDamage
      (MakeAsteroid Libm.sample 800 800 AsteroidShape.SQUARE (AsteroidDraws.top 1)).GetDamage
      WeaponType.BULLET).GetScore ∧
    (Ship.fresh.DealDamage
      (MakeAsteroid Libm.sample 800 800 AsteroidShape.HEALING (AsteroidDraws.top 1)).GetDamage
      WeaponType.BULLET).GetScore
      = Ship.fresh.GetScore -
        2 * (MakeAsteroid Libm.sample 800 800 AsteroidShape.HEALING (AsteroidDraws.top 1)).GetSize :=
  ⟨(hit_score_by_variant Libm.sample 800 800 AsteroidShape.SQUARE (AsteroidDraws.top 1)
      Ship.fresh WeaponType.BULLET).1 (Or.inr (Or.inl rfl)),
   (hit_score_by_variant Libm.sample 800 800 AsteroidShape.HEALING (AsteroidDraws.top 1)
      Ship.fresh WeaponType.BULLET).2 rfl⟩

/-! ## Fire rate bookkeeping -/

/-- What `DealDamage` does to the three fire rates: the laser slot (for `LASER`) or the bullet
slot (for `BULLET` and `CRATE`) receives `GetFireRate(wt)` plus `multiplier` times the new
score; the other slots keep their value. -/
theorem Ship.DealDamage_GetFireRate (s : Ship) (dmg : Int) (wt w : WeaponType) :
    (s.DealDamage dmg wt).GetFireRate w =
      if (w = WeaponType.LASER ∧ wt = WeaponType.LASER) ∨
          (w = WeaponType.BULLET ∧ wt ≠ WeaponType.LASER) then
        s.GetFireRate wt + s.multiplier * ((s.dmg_dealt + dmg : Int) : ℚ)
      else s.GetFireRate w := by
  cases wt <;> cases w <;> simp [Ship.DealDamage, Ship.GetFireRate]

theorem ShipCall.run_multiplier (c : ShipCall) (s : Ship) :
    (c.run s).multiplier = s.multiplier := by
  cases c with
  | takeDamage dmg =>
    simp only [ShipCall.run, Ship.TakeDamage]
    split
    · rfl
    · split <;> rfl
  | dealDamage dmg wt =>
    simp only [ShipCall.run, Ship.DealDamage]
    split <;> rfl
  | update keys dt =>
    simp only [ShipCall.run, Ship.Update]
    cases s.alive <;> cases keys.downW <;> cases keys.downS <;> cases keys.downA <;>
      cases keys.downD <;> rfl

theorem runCalls_multiplier (cs : List ShipCall) (s : Ship) :
    (runCalls cs s).multiplier = s.multiplier := by
  induction cs generalizing s with
  | nil => rfl
  | cons c cs ih =>
    have := ih (c.run s)
    rw [ShipCall.run_multiplier] at this
    simpa [runCalls] using this

theorem runCalls_create_multiplier (cs : List ShipCall) (sw sh tw : Int) :
    (runCalls cs (Ship.create sw sh tw)).multiplier = 1 / 1000 := by
  rw [runCalls_multiplier]
  rfl

/-- C4, as stated, fails. After a hit on a large `HEALING` obstacle (damage -8) the fresh
ship has score -8 and laser rate 4.992; the call `DealDamage(5, LASER)`, with `5 ≥ 0`, takes
the laser rate down to 4.989. Separately, on the fresh ship itself the call
`DealDamage(5, CRATE)` takes the bullet rate from 15 down to 3.005. -/
theorem fire_rate_can_drop :
    (runCalls [ShipCall.dealDamage (-8) WeaponType.LASER] Ship.fresh).GetFireRate WeaponType.LASER
      = 4992 / 1000 ∧
    ((runCalls [ShipCall.dealDamage (-8) WeaponType.LASER] Ship.fresh).DealDamage 5
      WeaponType.LASER).GetFireRate WeaponType.LASER = 4989 / 1000 ∧
    Ship.fresh.GetFireRate WeaponType.BULLET = 15 ∧
    (Ship.fresh.DealDamage 5 WeaponType.CRATE).GetFireRate WeaponType.BULLET = 3005 / 1000 := by
  refine ⟨?_, ?_, ?_, ?_⟩ <;>
    simp [runCalls, ShipCall.run, Ship.DealDamage, Ship.GetFireRate, Ship.fresh, Ship.create] <;>
    norm_num

/-- C4, amended: for every ship state reachable from a fresh ship by `TakeDamage`,
`DealDamage` and `Update` calls, every weapon kind `w`, and every call `DealDamage(dmg, wt)`
with `wt` being `LASER` or `BULLET` that leaves the cumulative score `≥ 0`, `GetFireRate(w)`
after the call is greater than or equal to `GetFireRate(w)` before it. -/
theorem fire_rate_nondecreasing (cs : List ShipCall) (sw sh tw : Int) (dmg : Int)
    (wt w : WeaponType) (hwt : wt = WeaponType.LASER ∨ wt = WeaponType.BULLET)
    (hscore : 0 ≤ (runCalls cs (Ship.create sw sh tw)).GetScore + dmg) :
    (runCalls cs (Ship.create sw sh tw)).GetFireRate w ≤
      ((runCalls cs (Ship.create sw sh tw)).DealDamage dmg wt).GetFireRate w := by
  have hm := runCalls_create_multiplier cs sw sh tw
  generalize runCalls cs (Ship.create sw sh tw) = s at hm hscore ⊢
  rw [Ship.DealDamage_GetFireRate, hm]
  have hq : (0 : ℚ) ≤ ((s.dmg_dealt + dmg : Int) : ℚ) := by
    exact_mod_cast hscore
  split
  · rename_i hc
    have hw : w = wt := by
      rcases hc with ⟨h1, h2⟩ | ⟨h1, h2⟩
      · rw [h1, h2]
      · rcases hwt with h | h
        · exact absurd h h2
        · rw [h1, h]
    rw [hw]
    have : (0 : ℚ) ≤ 1 / 1000 * ((s.dmg_dealt + dmg : Int) : ℚ) := by positivity
    linarith
  · exact le_refl _

/-- C4, amended, instance: after two laser hits of 5 and 10 on the fresh ship, a bullet hit
of 15 does not lower the bullet fire rate. -/
theorem fire_rate_nondecreasing_witness :
    (runCalls [ShipCall.dealDamage 5 WeaponType.LASER, ShipCall.dealDamage 10 WeaponType.LASER]
        (Ship.create 800 800 400)).GetFireRate WeaponType.BULLET ≤
      ((runCalls [ShipCall.dealDamage 5 WeaponType.LASER, ShipCall.dealDamage 10 WeaponType.LASER]
        (Ship.create 800 800 400)).DealDamage 15 WeaponType.BULLET).GetFireRate WeaponType.BULLET :=
  fire_rate_nondecreasing
    [ShipCall.dealDamage 5 WeaponType.LASER, ShipCall.dealDamage 10 WeaponType.LASER]
    800 800 400 15 WeaponType.BULLET WeaponType.BULLET (Or.inr rfl)
    (by simp [runCalls, ShipCall.run, Ship.DealDamage, Ship.GetScore, Ship.create])

/-- C5, as stated, fails: two laser hits of 5 each on the fresh ship leave score 10 and laser
rate 5.015, not `5 + 0.001 * 10 = 5.01`; one laser hit of 10 leaves the same score 10 and
laser rate 5.01, so the rate is not a function of the current score. -/
theorem fire_rate_depends_on_history :
    (runCalls [ShipCall.dealDamage 5 WeaponType.LASER, ShipCall.dealDamage 5 WeaponType.LASER]
      Ship.fresh).GetScore = 10 ∧
    (runCalls [ShipCall.dealDamage 5 WeaponType.LASER, ShipCall.dealDamage 5 WeaponType.LASER]
      Ship.fresh).GetFireRate WeaponType.LASER = 5015 / 1000 ∧
    (runCalls [ShipCall.dealDamage 10 WeaponType.LASER] Ship.fresh).GetScore = 10 ∧
    (runCalls [ShipCall.dealDamage 10 WeaponType.LASER] Ship.fresh).GetFireRate WeaponType.LASER
      = 5010 / 1000 := by
  refine ⟨?_, ?_, ?_, ?_⟩ <;>
    simp [runCalls, ShipCall.run, Ship.DealDamage, Ship.GetFireRate, Ship.GetScore, Ship.fresh,
      Ship.create] <;>
    norm_num

/-- C5, amended: after every call `DealDamage(dmg, wt)` on a ship reachable from a fresh ship
the score has grown by `dmg`, and for `wt` being `LASER` or `BULLET` the fire rate of `wt`
equals its value before the call plus `0.001` times the new cumulative score; the rates
before the first call are 5 (`LASER`) and 15 (`BULLET`). -/
theorem DealDamage_accumulates (cs : List ShipCall) (sw sh tw : Int) (dmg : Int)
    (wt : WeaponType) :
    ((runCalls cs (Ship.create sw sh tw)).DealDamage dmg wt).GetScore
      = (runCalls cs (Ship.create sw sh tw)).GetScore + dmg ∧
    ((wt = WeaponType.LASER ∨ wt = WeaponType.BULLET) →
      ((runCalls cs (Ship.create sw sh tw)).DealDamage dmg wt).GetFireRate wt
        = (runCalls cs (Ship.create sw sh tw)).GetFireRate wt
          + 1 / 1000 * (((runCalls cs (Ship.create sw sh tw)).GetScore + dmg : Int) : ℚ)) ∧
    (Ship.create sw sh tw).GetFireRate WeaponType.LASER = 5 ∧
    (Ship.create sw sh tw).GetFireRate WeaponType.BULLET = 15 := by
  have hm := runCalls_create_multiplier cs sw sh tw
  refine ⟨Ship.DealDamage_score _ _ _, ?_, rfl, rfl⟩
  generalize runCalls cs (Ship.create sw sh tw) = s at hm ⊢
  rintro (rfl | rfl) <;> rw [Ship.DealDamage_GetFireRate, hm] <;> simp [Ship.GetScore]

/-- C5, amended, instance: the second laser hit of 5 on the fresh ship adds `0.001 * 10` to the
laser rate the first hit left. -/
theorem DealDamage_accumulates_witness :
    ((runCalls [ShipCall.dealDamage 5 WeaponType.LASER] (Ship.create 800 800 400)).DealDamage 5
        WeaponType.LASER).GetFireRate WeaponType.LASER
      = (runCalls [ShipCall.dealDamage 5 WeaponType.LASER]
          (Ship.create 800 800 400)).GetFireRate WeaponType.LASER
        + 1 / 1000 * (((runCalls [ShipCall.dealDamage 5 WeaponType.LASER]
          (Ship.create 800 800 400)).GetScore + 5 : Int) : ℚ) :=
  (DealDamage_accumulates [ShipCall.dealDamage 5 WeaponType.LASER] 800 800 400 5
    WeaponType.LASER).2.1 (Or.inl rfl)

/-! ## `Asteroid::Update` -/

/-- The effect of `Asteroid::Update` on the asteroid. -/
theorem Asteroid.Update_state (r : Renderer) (a : Asteroid) (dt : ℚ) :
    (Asteroid.Update r a dt).1 =
      { a with
        position := ⟨a.position.x + a.velocity.x * dt, a.position.y + a.velocity.y * dt⟩
        rotation := a.rotation + a.rotationSpeed * dt } := by
  unfold Asteroid.Update
  simp only [Vector2Add, Vector2Scale]
  split <;> rfl

/-- The flag `Asteroid::Update` returns. -/
theorem Asteroid.Update_flag (r : Renderer) (a : Asteroid) (dt : ℚ) :
    ((Asteroid.Update r a dt).2 = false ↔
      (a.position.x + a.velocity.x * dt < -a.GetRadius ∨
       a.position.x + a.velocity.x * dt > (r.screenW : ℚ) + a.GetRadius ∨
       a.position.y + a.velocity.y * dt < -a.GetRadius ∨
       a.position.y + a.velocity.y * dt > (r.screenH : ℚ) + a.GetRadius)) ∧
    ((Asteroid.Update r a dt).2 = true ↔
      ¬ (a.position.x + a.velocity.x * dt < -a.GetRadius ∨
       a.position.x + a.velocity.x * dt > (r.screenW : ℚ) + a.GetRadius ∨
       a.position.y + a.velocity.y * dt < -a.GetRadius ∨
       a.position.y + a.velocity.y * dt > (r.screenH : ℚ) + a.GetRadius)) := by
  unfold Asteroid.Update
  simp only [Vector2Add, Vector2Scale, Asteroid.GetRadius, Renderer.Width, Renderer.Height]
  split <;> rename_i hc
  · exact ⟨⟨fun _ => hc, fun _ => rfl⟩, ⟨fun h => Bool.noConfusion h, fun h => absurd hc h⟩⟩
  · exact ⟨⟨fun h => Bool.noConfusion h, fun h => absurd h hc⟩, ⟨fun _ => hc, fun _ => rfl⟩⟩

/-- C8. `Asteroid::Update(dt)`, for every obstacle and every `dt` (no sign condition is
needed, so in particular for `dt ≥ 0`): the position becomes `position + velocity * dt`, the
rotation becomes `rotation + rotationSpeed * dt`, nothing else changes, and the call returns
`false` exactly when the new position has `x < -radius` or `x > screenWidth + radius` or
`y < -radius` or `y > screenHeight + radius`, and `true` otherwise. -/
theorem Asteroid_Update_contract (r : Renderer) (a : Asteroid) (dt : ℚ) :
    (Asteroid.Update r a dt).1 =
      { a with
        position := ⟨a.position.x + a.velocity.x * dt, a.position.y + a.velocity.y * dt⟩
        rotation := a.rotation + a.rotationSpeed * dt } ∧
    ((Asteroid.Update r a dt).2 = false ↔
      (a.position.x + a.velocity.x * dt < -a.GetRadius ∨
       a.position.x + a.velocity.x * dt > (r.screenW : ℚ) + a.GetRadius ∨
       a.position.y + a.velocity.y * dt < -a.GetRadius ∨
       a.position.y + a.velocity.y * dt > (r.screenH : ℚ) + a.GetRadius)) ∧
    ((Asteroid.Update r a dt).2 = true ↔
      ¬ (a.position.x + a.velocity.x * dt < -a.GetRadius ∨
       a.position.x + a.velocity.x * dt > (r.screenW : ℚ) + a.GetRadius ∨
       a.position.y + a.velocity.y * dt < -a.GetRadius ∨
       a.position.y + a.velocity.y * dt > (r.screenH : ℚ) + a.GetRadius)) := by
  unfold Asteroid.Update
  simp only [Vector2Add, Vector2Scale, Asteroid.GetRadius, Renderer.Width, Renderer.Height]
  split <;> rename_i hc
  · exact ⟨rfl, ⟨fun _ => hc, fun _ => rfl⟩, ⟨fun h => Bool.noConfusion h, fun h => absurd hc h⟩⟩
  · exact ⟨rfl, ⟨fun h => Bool.noConfusion h, fun h => absurd h hc⟩, ⟨fun _ => hc, fun _ => rfl⟩⟩

theorem Asteroid.UpdateAll_concat (r : Renderer) (a : Asteroid) (dts : List ℚ) (dt : ℚ) :
    Asteroid.UpdateAll r a (dts ++ [dt]) = Asteroid.Update r (Asteroid.UpdateAll r a dts).1 dt := by
  simp [Asteroid.UpdateAll, List.foldl_append]

theorem Asteroid.UpdateAll_motion (r : Renderer) (a : Asteroid) (dts : List ℚ) :
    (Asteroid.UpdateAll r a dts).1.position =
      ⟨a.position.x + a.velocity.x * dts.sum, a.position.y + a.velocity.y * dts.sum⟩ ∧
    (Asteroid.UpdateAll r a dts).1.velocity = a.velocity ∧
    (Asteroid.UpdateAll r a dts).1.size = a.size := by
  induction dts using List.reverseRecOn with
  | nil => simp [Asteroid.UpdateAll]
  | append_singleton dts dt ih =>
    obtain ⟨hp, hv, hs⟩ := ih
    rw [Asteroid.UpdateAll_concat]
    have h := Asteroid.Update_state r (Asteroid.UpdateAll r a dts).1 dt
    rw [h]
    simp only [hp, hv, hs, List.sum_append, List.sum_singleton, Vector2.mk.injEq]
    refine ⟨⟨by ring, by ring⟩, trivial, trivial⟩

/-- C9, as stated, fails: a size class 1 obstacle (radius 47) at `(400, -47)` with velocity
`(0, 200)` on the 800 x 800 screen is, after `(800 + 2 * 47) / 200` seconds, at
`y = 847 = 800 + radius`, which is not beyond the bound, and `Update` returns `true`. -/
theorem top_edge_on_time_stays_alive :
    (Asteroid.mk ⟨400, -47⟩ 0 ⟨0, 200⟩ 0 Size.SMALL 5).GetRadius = 47 ∧
    (Asteroid.Update Renderer.game (Asteroid.mk ⟨400, -47⟩ 0 ⟨0, 200⟩ 0 Size.SMALL 5)
      ((800 + 2 * 47) / 200)).1.position = ⟨400, 847⟩ ∧
    (Asteroid.Update Renderer.game (Asteroid.mk ⟨400, -47⟩ 0 ⟨0, 200⟩ 0 Size.SMALL 5)
      ((800 + 2 * 47) / 200)).2 = true := by
  have hr : (Asteroid.mk ⟨400, -47⟩ 0 ⟨0, 200⟩ 0 Size.SMALL 5).GetRadius = 47 := by
    norm_num [Asteroid.GetRadius, Asteroid.radiusOfSize, Size.toInt]
  refine ⟨hr, ?_, ?_⟩
  · rw [Asteroid.Update_state]
    norm_num
  · rw [(Asteroid.Update_flag _ _ _).2, hr]
    norm_num [Renderer.game, C_WIDTH, C_HEIGHT]

/-- C9, amended: for every obstacle size class, an obstacle at the top edge
(`position.y = -radius`, `x` within `[0, 800]`) with velocity `(0, 200)` on the 800 x 800
screen, advanced by `Update` calls whose frame times add up to `t`: the last call returns
`false` exactly when `t > (800 + 2 * radius) / 200` (or `t < 0`); after exactly
`(800 + 2 * radius) / 200` seconds it still returns `true`. -/
theorem top_edge_scenario (sz : Size) (x rot rs : ℚ) (bd : Int) (dts : List ℚ)
    (hx0 : 0 ≤ x) (hx1 : x ≤ 800) (hne : dts ≠ []) :
    ((Asteroid.UpdateAll Renderer.game
        (Asteroid.mk ⟨x, -Asteroid.radiusOfSize sz⟩ rot ⟨0, 200⟩ rs sz bd) dts).2 = false ↔
      (dts.sum < 0 ∨ dts.sum > (800 + 2 * Asteroid.radiusOfSize sz) / 200)) := by
  have hrad : 0 < Asteroid.radiusOfSize sz := by
    cases sz <;> norm_num [Asteroid.radiusOfSize, Size.toInt]
  rcases List.eq_nil_or_concat dts with h | ⟨init, dt, rfl⟩
  · exact absurd h hne
  · rw [List.concat_eq_append] at *
    rw [Asteroid.UpdateAll_concat, (Asteroid.Update_flag _ _ _).1]
    obtain ⟨hp, hv, hs⟩ := Asteroid.UpdateAll_motion Renderer.game
      (Asteroid.mk ⟨x, -Asteroid.radiusOfSize sz⟩ rot ⟨0, 200⟩ rs sz bd) init
    simp only [Asteroid.GetRadius]
    rw [hp, hv, hs]
    simp only [Renderer.game, C_WIDTH, C_HEIGHT, List.sum_append, List.sum_singleton]
    generalize Asteroid.radiusOfSize sz = rad at hrad ⊢
    generalize init.sum = t0
    push_cast
    constructor
    · rintro (h | h | h | h)
      · nlinarith
      · nlinarith
      · left; nlinarith
      · right
        rw [gt_iff_lt, div_lt_iff₀ (by norm_num : (0:ℚ) < 200)]
        nlinarith
    · rintro (h | h)
      · right; right; left; nlinarith
      · right; right; right
        rw [gt_iff_lt, div_lt_iff₀ (by norm_num : (0:ℚ) < 200)] at h
        nlinarith

/-- C9, amended, instance: a large obstacle (radius 92) at `(0, -92)`, moved for 3 seconds and
then for 2 more, is past `(800 + 2 * 92) / 200 = 4.92` seconds and the last `Update` returns
`false`. -/
theorem top_edge_scenario_witness :
    (Asteroid.UpdateAll Renderer.game
      (Asteroid.mk ⟨0, -Asteroid.radiusOfSize Size.LARGE⟩ 0 ⟨0, 200⟩ 0 Size.LARGE 15)
      [3, 2]).2 = false :=
  (top_edge_scenario Size.LARGE 0 0 0 15 [3, 2] (le_refl 0) (by norm_num) (by simp)).2
    (Or.inr (by norm_num [Asteroid.radiusOfSize, Size.toInt]))

/-! ## Collision tests -/

/-- The test `Vector2DistanceLt` decides whether the Euclidean distance, a real square root,
is below the bound. -/
theorem Vector2DistanceLt_iff (v1 v2 : Vector2) (bound : ℚ) :
    Vector2DistanceLt v1 v2 bound = true ↔
      Real.sqrt ((((v1.x - v2.x) ^ 2 + (v1.y - v2.y) ^ 2 : ℚ) : ℝ)) < (bound : ℝ) := by
  unfold Vector2DistanceLt
  rw [decide_eq_true_iff]
  constructor
  · rintro ⟨hb, hlt⟩
    have hb' : (0 : ℝ) < (bound : ℝ) := by exact_mod_cast hb
    rw [Real.sqrt_lt' hb']
    have : (v1.x - v2.x) ^ 2 + (v1.y - v2.y) ^ 2 < bound ^ 2 := by nlinarith
    exact_mod_cast this
  · intro h
    have hb' : (0 : ℝ) < (bound : ℝ) := lt_of_le_of_lt (Real.sqrt_nonneg _) h
    have hb : 0 < bound := by exact_mod_cast hb'
    rw [Real.sqrt_lt' hb'] at h
    have h2 : (v1.x - v2.x) ^ 2 + (v1.y - v2.y) ^ 2 < bound ^ 2 := by exact_mod_cast h
    exact ⟨hb, by nlinarith⟩

theorem Vector2DistanceLt_swap (v1 v2 : Vector2) (b1 b2 : ℚ) :
    Vector2DistanceLt v2 v1 (b2 + b1) = Vector2DistanceLt v1 v2 (b1 + b2) := by
  unfold Vector2DistanceLt
  congr 1
  rw [add_comm b2 b1]
  have e : (v2.x - v1.x) * (v2.x - v1.x) + (v2.y - v1.y) * (v2.y - v1.y)
      = (v1.x - v2.x) * (v1.x - v2.x) + (v1.y - v2.y) * (v1.y - v2.y) := by ring
  rw [e]

/-- C10. Both collision tests of the game loop (projectile-obstacle and ship-obstacle) judge
the two entities colliding exactly when the Euclidean distance between their centres is
strictly below the sum of their radii; at a distance equal to the sum of the radii they are not
colliding; and the verdict is the same when the two entities are swapped. -/
theorem collision_tests_euclidean (p : Projectile) (s : Ship) (a : Asteroid) :
    (projectileHits p a = true ↔
      Real.sqrt ((((p.position.x - a.position.x) ^ 2 + (p.position.y - a.position.y) ^ 2 : ℚ) : ℝ))
        < ((p.GetRadius + a.GetRadius : ℚ) : ℝ)) ∧
    (shipHits s a = true ↔
      Real.sqrt ((((s.position.x - a.position.x) ^ 2 + (s.position.y - a.position.y) ^ 2 : ℚ) : ℝ))
        < ((s.GetRadius + a.GetRadius : ℚ) : ℝ)) ∧
    (Real.sqrt ((((p.position.x - a.position.x) ^ 2 + (p.position.y - a.position.y) ^ 2 : ℚ) : ℝ))
        = ((p.GetRadius + a.GetRadius : ℚ) : ℝ) → projectileHits p a = false) ∧
    (Real.sqrt ((((s.position.x - a.position.x) ^ 2 + (s.position.y - a.position.y) ^ 2 : ℚ) : ℝ))
        = ((s.GetRadius + a.GetRadius : ℚ) : ℝ) → shipHits s a = false) ∧
    Vector2DistanceLt a.GetPosition p.GetPosition (a.GetRadius + p.GetRadius)
      = projectileHits p a ∧
    Vector2DistanceLt a.GetPosition s.GetPosition (a.GetRadius + s.GetRadius)
      = shipHits s a := by
  have hp := Vector2DistanceLt_iff p.GetPosition a.GetPosition (p.GetRadius + a.GetRadius)
  have hs := Vector2DistanceLt_iff s.GetPosition a.GetPosition (s.GetRadius + a.GetRadius)
  refine ⟨hp, hs, ?_, ?_, Vector2DistanceLt_swap _ _ _ _, Vector2DistanceLt_swap _ _ _ _⟩
  · intro h
    cases hv : projectileHits p a
    · rfl
    · exact absurd (hp.1 hv) (by rw [Projectile.GetPosition, Asteroid.GetPosition, h]; exact lt_irrefl _)
  · intro h
    cases hv : shipHits s a
    · rfl
    · exact absurd (hs.1 hv) (by rw [Ship.GetPosition, Asteroid.GetPosition, h]; exact lt_irrefl _)

/-- C10, instance: a bullet (radius 5) at `(0, 0)` and a size class 1 obstacle (radius 47) at
`(52, 0)` are at distance 52, the sum of the radii, and do not collide; the fresh ship
(radius 50, at `(400, 400)`) and a size class 1 obstacle at `(400, 497)` are at distance 97,
the sum of the radii, and do not collide. -/
theorem collision_tests_euclidean_witness :
    projectileHits (MakeProjectile WeaponType.BULLET ⟨0, 0⟩ 300)
      (Asteroid.mk ⟨52, 0⟩ 0 ⟨0, 200⟩ 0 Size.SMALL 5) = false ∧
    shipHits Ship.fresh (Asteroid.mk ⟨400, 497⟩ 0 ⟨0, 200⟩ 0 Size.SMALL 5) = false := by
  constructor
  · refine (collision_tests_euclidean (MakeProjectile WeaponType.BULLET ⟨0, 0⟩ 300) Ship.fresh
      (Asteroid.mk ⟨52, 0⟩ 0 ⟨0, 200⟩ 0 Size.SMALL 5)).2.2.1 ?_
    have e : ((((MakeProjectile WeaponType.BULLET ⟨0, 0⟩ 300).position.x - (52 : ℚ)) ^ 2
        + ((MakeProjectile WeaponType.BULLET ⟨0, 0⟩ 300).position.y - (0 : ℚ)) ^ 2 : ℚ) : ℝ)
        = (52 : ℝ) ^ 2 := by
      simp [MakeProjectile]
    have r : (((MakeProjectile WeaponType.BULLET ⟨0, 0⟩ 300).GetRadius
        + (Asteroid.mk ⟨52, 0⟩ 0 ⟨0, 200⟩ 0 Size.SMALL 5).GetRadius : ℚ) : ℝ) = 52 := by
      simp [MakeProjectile, Projectile.GetRadius, Asteroid.GetRadius, Asteroid.radiusOfSize,
        Size.toInt]
      norm_num
    rw [r]
    show Real.sqrt _ = 52
    rw [e]
    exact Real.sqrt_sq (by norm_num)
  · refine (collision_tests_euclidean (MakeProjectile WeaponType.BULLET ⟨0, 0⟩ 300) Ship.fresh
      (Asteroid.mk ⟨400, 497⟩ 0 ⟨0, 200⟩ 0 Size.SMALL 5)).2.2.2.1 ?_
    have e : (((Ship.fresh.position.x - (400 : ℚ)) ^ 2
        + (Ship.fresh.position.y - (497 : ℚ)) ^ 2 : ℚ) : ℝ) = (97 : ℝ) ^ 2 := by
      norm_num [Ship.fresh, Ship.create]
    have r : ((Ship.fresh.GetRadius
        + (Asteroid.mk ⟨400, 497⟩ 0 ⟨0, 200⟩ 0 Size.SMALL 5).GetRadius : ℚ) : ℝ) = 97 := by
      norm_num [Ship.fresh, Ship.create, Ship.GetRadius, Asteroid.GetRadius,
        Asteroid.radiusOfSize, Size.toInt]
    rw [r]
    show Real.sqrt _ = 97
    rw [e]
    exact Real.sqrt_sq (by norm_num)

/-! ## The shooting block -/

/-- The firing loop with a positive interval and enough fuel ends: it pushes `k` projectiles
and leaves `shotTimer - k * interval`, which lies in `[0, interval)`. -/
theorem fireLoop_spec (player : Ship) (w : WeaponType) (interval speed : ℚ) :
    ∀ (fuel : Nat) (t : ℚ) (ps : List Projectile), 0 ≤ t → t < ((fuel : ℚ) + 1) * interval →
      ∃ (k : Nat) (ps1 : List Projectile),
        fireLoop player w interval speed fuel t ps = some (t - (k : ℚ) * interval, ps1) ∧
        ps1.length = ps.length + k ∧ 0 ≤ t - (k : ℚ) * interval ∧
        t - (k : ℚ) * interval < interval := by
  intro fuel
  induction fuel with
  | zero =>
    intro t ps h0 hlt
    have hlt1 : t < interval := by simpa using hlt
    refine ⟨0, ps, ?_, by simp, by simpa using h0, by simpa using hlt1⟩
    simp [fireLoop, not_le.mpr hlt1]
  | succ fuel ih =>
    intro t ps h0 hlt
    by_cases hge : t ≥ interval
    · have hlt1 : t - interval < ((fuel : ℚ) + 1) * interval := by
        push_cast at hlt
        linarith
      obtain ⟨k, ps1, hrun, hlen, hk0, hk1⟩ := ih (t - interval)
        (ps ++ [MakeProjectile w ⟨player.GetPosition.x, player.GetPosition.y - player.GetRadius⟩
          speed]) (by linarith) hlt1
      refine ⟨k + 1, ps1, ?_, ?_, ?_, ?_⟩
      · simp only [fireLoop, hge, if_true]
        rw [hrun]
        congr 2
        push_cast
        ring
      · rw [hlen]
        simp
        ring
      · push_cast
        linarith
      · push_cast
        linarith
    · refine ⟨0, ps, ?_, by simp, by simpa using h0, by simpa using (not_le.mp hge)⟩
      simp [fireLoop, hge]

theorem log2Fuel_spec :
    ∀ (fuel n : Nat), 1 ≤ n → n ≤ fuel →
      2 ^ log2Fuel fuel n ≤ n ∧ n < 2 ^ (log2Fuel fuel n + 1) := by
  intro fuel
  induction fuel with
  | zero =>
    intro n h1 h2
    omega
  | succ fuel ih =>
    intro n h1 h2
    by_cases hn : n < 2
    · have : n = 1 := by omega
      subst this
      simp [log2Fuel]
    · have hhalf : 1 ≤ n / 2 := by omega
      have hle : n / 2 ≤ fuel := by omega
      obtain ⟨hlo, hhi⟩ := ih (n / 2) hhalf hle
      simp only [log2Fuel, hn, if_false]
      constructor
      · have := (Nat.le_div_iff_mul_le (by norm_num : 0 < 2)).1 hlo
        rw [pow_succ]
        exact this
      · have := (Nat.div_lt_iff_lt_mul (by norm_num : 0 < 2)).1 hhi
        rw [pow_succ (2 : Nat) (log2Fuel fuel (n / 2) + 1)]
        exact this

/-- The leading bit found by `log2Floor` is the leading bit: `2 ^ e ≤ n < 2 ^ (e + 1)`. -/
theorem log2Floor_spec (n : Nat) (h : 1 ≤ n) :
    2 ^ log2Floor n ≤ n ∧ n < 2 ^ (log2Floor n + 1) :=
  log2Fuel_spec n n h (le_refl n)

/-- The integer `roundHalfEven` picks is a nearest one: it is at most 1/2 away. -/
theorem roundHalfEven_near (x : ℚ) : |(roundHalfEven x : ℚ) - x| ≤ 1 / 2 := by
  have h0 : (⌊x⌋ : ℚ) ≤ x := Int.floor_le x
  have h1 : x < (⌊x⌋ : ℚ) + 1 := Int.lt_floor_add_one x
  unfold roundHalfEven
  simp only []
  split
  · rw [abs_le]
    constructor <;> linarith
  · split
    · rw [abs_le]
      push_cast
      constructor <;> linarith
    · have hr : x - (⌊x⌋ : ℚ) = 1 / 2 := by
        rename_i ha hb
        linarith [not_lt.mp ha, not_lt.mp hb]
      split
      · rw [abs_le]
        constructor <;> linarith
      · rw [abs_le]
        push_cast
        constructor <;> linarith

theorem fireLoop_exact (player : Ship) (w : WeaponType) (interval speed : ℚ)
    (hi : 0 < interval) :
    ∀ (k fuel : Nat) (ps : List Projectile), k ≤ fuel →
      fireLoop player w interval speed fuel ((k : ℚ) * interval) ps =
        some (0, ps ++ List.replicate k
          (MakeProjectile w ⟨player.GetPosition.x, player.GetPosition.y - player.GetRadius⟩
            speed)) := by
  intro k
  induction k with
  | zero =>
    intro fuel ps _
    have h : ¬ ((0 : ℚ) ≥ interval) := not_le.mpr hi
    cases fuel <;> simp [fireLoop, h]
  | succ k ih =>
    intro fuel ps hk
    obtain ⟨f, rfl⟩ : ∃ f, fuel = f + 1 := ⟨fuel - 1, by omega⟩
    have hge : ((k + 1 : Nat) : ℚ) * interval ≥ interval := by
      push_cast
      nlinarith [Nat.cast_nonneg (α := ℚ) k]
    have hsub : ((k + 1 : Nat) : ℚ) * interval - interval = (k : ℚ) * interval := by
      push_cast
      ring
    simp only [fireLoop, hge, if_true, hsub]
    rw [ih f _ (by omega)]
    simp [List.replicate_succ]

theorem updateProjectiles_replicate (r : Renderer) (keys : Keys) (dt : ℚ) (p : Projectile)
    (h : Projectile.Update r keys p dt = (p, false)) (n : Nat) :
    updateProjectiles r keys dt (List.replicate n p) = List.replicate n p := by
  induction n with
  | zero => rfl
  | succ n ih => simp [List.replicate_succ, updateProjectiles, h, ih]

theorem collideProjectiles_no_asteroids (m : Libm) (shape : AsteroidShape) (w : WeaponType)
    (draws : Nat → AsteroidDraws) (player : Ship) (k : Nat) (ps : List Projectile) :
    collideProjectiles m shape w draws ps ⟨player, [], k⟩ = (ps, ⟨player, [], k⟩) := by
  induction ps with
  | nil => rfl
  | cons p ps ih => simp [collideProjectiles, firstHit, ih]

theorem floatToInt_intCast (n : Int) : floatToInt (n : ℚ) = n := by
  simp [floatToInt]

theorem stockProjectile_stays (keys : Keys) (dt : ℚ) :
    Projectile.Update Renderer.game keys stockProjectile dt = (stockProjectile, false) := by
  simp [Projectile.Update, stockProjectile, MakeProjectile, Vector2Add, Vector2Subtract,
    Vector2Scale, Renderer.game, Renderer.Width, Renderer.Height, C_WIDTH, C_HEIGHT]
  norm_num

theorem sample_sqrtf_split : Libm.sample.sqrtf (284089 / 4) = 533 / 2 := by
  have e : (284089 / 4 : ℚ) = (533 / 2) * (533 / 2) := by norm_num
  show Rat.sqrt (284089 / 4) = 533 / 2
  rw [e, Rat.sqrt_eq]
  norm_num [abs_of_pos]

theorem sample_trig_zero : Libm.sample.cosf 0 = 1 ∧ Libm.sample.sinf 0 = 0 := by
  simp [Libm.sample]

theorem splitAsteroid_eq :
    splitAsteroid = ⟨⟨525, -92⟩, 0, ⟨-65625 / 533, 11500 / 533⟩, 50, Size.LARGE, 15⟩ := by
  simp only [splitAsteroid, MakeAsteroid, makeVariant, Asteroid.init, AsteroidDraws.topAt,
    AsteroidDraws.top, Size.ofShift, Asteroid.radiusOfSize, Size.toInt, Utils.RandomFloat,
    Vector2Normalize, Vector2Subtract, Vector2Scale, Asteroid.SPEED_MIN,
    Asteroid.SPEED_MAX, Asteroid.ROT_MIN, Asteroid.ROT_MAX]
  norm_num [sample_trig_zero.1, sample_trig_zero.2]
  rw [sample_sqrtf_split]
  norm_num

theorem replicate_grow {α : Type} (c : α) (j : Nat) :
    ((List.replicate (j + 1) c ++ [c]) ++ [c]).eraseIdx 0 = List.replicate (j + 2) c := by
  simp only [List.replicate_succ, List.cons_append, List.eraseIdx_cons_zero]
  induction j with
  | zero => rfl
  | succ j ih => simp only [List.replicate_succ, List.cons_append, ih]

theorem stockProjectile_eq :
    stockProjectile = ⟨⟨525, 50⟩, ⟨0, -2400⟩, 50, WeaponType.CRATE⟩ := by
  simp [stockProjectile, MakeProjectile]

theorem projectileHits_stock (a : Asteroid) (hx : a.position.x = 525)
    (hy : a.position.y = -a.GetRadius) :
    projectileHits stockProjectile a = true := by
  have hr : 47 ≤ a.GetRadius := by
    unfold Asteroid.GetRadius Asteroid.radiusOfSize
    cases a.size <;> norm_num [Size.toInt]
  have hpr : stockProjectile.GetRadius = 100 := by
    simp [stockProjectile_eq, Projectile.GetRadius]
  simp only [projectileHits, Vector2DistanceLt, Projectile.GetPosition, Asteroid.GetPosition,
    hpr, hx, hy, decide_eq_true_eq]
  simp only [stockProjectile_eq]
  norm_num
  constructor <;> nlinarith

/-- What the run asks of the player between frames: alive at `(525, 100)` with radius 50 and
the crate fire rate 3. -/
theorem stock_player_facts (pl : Ship) (d : Int)
    (h : pl.position = ⟨525, 100⟩ ∧ pl.alive = true ∧ pl.GetRadius = 50 ∧ pl.fireRateCrate = 3) :
    (pl.DealDamage d WeaponType.CRATE).position = ⟨525, 100⟩ ∧
    (pl.DealDamage d WeaponType.CRATE).alive = true ∧
    (pl.DealDamage d WeaponType.CRATE).GetRadius = 50 ∧
    (pl.DealDamage d WeaponType.CRATE).fireRateCrate = 3 ∧
    (pl.DealDamage d WeaponType.CRATE).dmg_dealt = pl.dmg_dealt + d := by
  obtain ⟨h1, h2, h3, h4⟩ := h
  simp [Ship.DealDamage, Ship.GetRadius] at *
  exact ⟨h1, h2, h3, h4⟩

theorem floatToInt_split :
    floatToInt splitAsteroid.GetPosition.x = 525 ∧ floatToInt splitAsteroid.GetPosition.y = -92 := by
  rw [splitAsteroid_eq]
  constructor
  · have := floatToInt_intCast 525
    simpa [Asteroid.GetPosition] using this
  · have := floatToInt_intCast (-92)
    simpa [Asteroid.GetPosition] using this

theorem splitAsteroid_hit : projectileHits stockProjectile splitAsteroid = true := by
  apply projectileHits_stock <;> rw [splitAsteroid_eq]
  norm_num [Asteroid.GetRadius, Asteroid.radiusOfSize, Size.toInt]

theorem splitAsteroid_damage : splitAsteroid.GetDamage = 60 := by
  rw [splitAsteroid_eq]
  rfl

/-- With the score above 440 and of remainder 3 modulo 5, every stocked projectile splits one
obstacle of the row into two. -/
theorem collideProjectiles_chain (n : Nat) :
    ∀ (pl : Ship) (j k : Nat), 440 < pl.dmg_dealt → pl.dmg_dealt % 5 = 3 →
      ∃ pl1 : Ship, ∃ k1 : Nat,
        collideProjectiles Libm.sample AsteroidShape.PENTAGON WeaponType.CRATE
          (fun _ => AsteroidDraws.topAt 2 1) (List.replicate n stockProjectile)
          ⟨pl, List.replicate (j + 1) splitAsteroid, k⟩
          = ([], ⟨pl1, List.replicate (j + 1 + n) splitAsteroid, k1⟩) ∧
        pl1.position = pl.position ∧ pl1.GetRadius = pl.GetRadius := by
  induction n with
  | zero =>
    intro pl j k _ _
    exact ⟨pl, k, rfl, rfl, rfl⟩
  | succ n ih =>
    intro pl j k hs hm
    have hfirst : firstHit stockProjectile (List.replicate (j + 1) splitAsteroid)
        = some (0, splitAsteroid) := by
      simp [List.replicate_succ, firstHit, splitAsteroid_hit]
    have hscore : (pl.DealDamage 60 WeaponType.CRATE).GetScore = pl.dmg_dealt + 60 :=
      Ship.DealDamage_score pl 60 WeaponType.CRATE
    have hcond : (pl.DealDamage 60 WeaponType.CRATE).GetScore > 500 ∧
        Int.tmod (pl.DealDamage 60 WeaponType.CRATE).GetScore 5 ≠ 0 := by
      rw [hscore]
      refine ⟨by omega, ?_⟩
      rw [Int.tmod_eq_emod (by omega) (by norm_num)]
      omega
    have hres : resolveHit Libm.sample AsteroidShape.PENTAGON WeaponType.CRATE
        (fun _ => AsteroidDraws.topAt 2 1) 0 splitAsteroid
        ⟨pl, List.replicate (j + 1) splitAsteroid, k⟩
        = ⟨pl.DealDamage 60 WeaponType.CRATE, List.replicate (j + 2) splitAsteroid, k + 2⟩ := by
      simp only [resolveHit, splitAsteroid_damage]
      rw [if_pos hcond]
      simp only [floatToInt_split.1, floatToInt_split.2]
      rw [show MakeAsteroid Libm.sample 525 (-92) AsteroidShape.PENTAGON
        (AsteroidDraws.topAt 2 1) = splitAsteroid from rfl, replicate_grow]
    obtain ⟨pl1, k1, hrun, hpos, hrad⟩ := ih (pl.DealDamage 60 WeaponType.CRATE) (j + 1) (k + 2)
      (by have := hscore; simp only [Ship.GetScore] at this; omega)
      (by have := hscore; simp only [Ship.GetScore] at this; omega)
    refine ⟨pl1, k1, ?_, ?_, ?_⟩
    · rw [List.replicate_succ, collideProjectiles, hfirst]
      simp only [hres]
      rw [hrun]
      congr 3
      omega
    · rw [hpos]
      simp [Ship.DealDamage]
    · rw [hrad]
      simp [Ship.DealDamage, Ship.GetRadius]

theorem splitAsteroid_survives (pl : Ship) (hpos : pl.position = ⟨525, 100⟩)
    (hrad : pl.GetRadius = 50) (n : Nat) :
    collideShip Renderer.game (1 / 2) (List.replicate n splitAsteroid) pl
      = (List.replicate n (Asteroid.Update Renderer.game splitAsteroid (1 / 2)).1, pl) := by
  have hmiss : shipHits pl splitAsteroid = false := by
    rw [splitAsteroid_eq]
    simp only [shipHits, Vector2DistanceLt, Ship.GetPosition, Asteroid.GetPosition, hpos, hrad,
      Asteroid.GetRadius, Asteroid.radiusOfSize, Size.toInt, decide_eq_false_iff_not]
    norm_num
  have hlive : (Asteroid.Update Renderer.game splitAsteroid (1 / 2)).2 = true := by
    rw [(Asteroid.Update_flag _ _ _).2, splitAsteroid_eq]
    norm_num [Asteroid.GetRadius, Asteroid.radiusOfSize, Size.toInt, Renderer.game, C_WIDTH,
      C_HEIGHT]
  induction n with
  | zero => rfl
  | succ n ih =>
    rw [List.replicate_succ, collideShip]
    simp only [hmiss, Bool.and_false, Bool.false_eq_true, if_false, hlive, Bool.not_true, ih,
      List.replicate_succ]

/-- The obstacle that `frameSpawn` spawns. -/
theorem spawned_facts :
    (MakeAsteroid Libm.sample C_WIDTH C_HEIGHT AsteroidShape.PENTAGON
      (AsteroidDraws.topAt 2 (21 / 32))).position = ⟨525, -92⟩ ∧
    (MakeAsteroid Libm.sample C_WIDTH C_HEIGHT AsteroidShape.PENTAGON
      (AsteroidDraws.topAt 2 (21 / 32))).GetRadius = 92 ∧
    (MakeAsteroid Libm.sample C_WIDTH C_HEIGHT AsteroidShape.PENTAGON
      (AsteroidDraws.topAt 2 (21 / 32))).GetDamage = 60 := by
  refine ⟨?_, ?_, ?_⟩
  · simp [MakeAsteroid, makeVariant, Asteroid.init, AsteroidDraws.topAt, AsteroidDraws.top,
      Size.ofShift, Asteroid.radiusOfSize, Size.toInt, Utils.RandomFloat, C_WIDTH]
    norm_num
  · simp [MakeAsteroid, makeVariant, Asteroid.init, AsteroidDraws.topAt, AsteroidDraws.top,
      Size.ofShift, Asteroid.radiusOfSize, Size.toInt, Asteroid.GetRadius]
    norm_num
  · simp [MakeAsteroid, makeVariant, Asteroid.init, AsteroidDraws.topAt, AsteroidDraws.top,
      Size.ofShift, Size.toInt, Asteroid.GetDamage]

/-- A frame `frameSpawn` on a stocked session with the pentagon shape pressed or selected
before: nothing is fired, one large pentagon is spawned at `(525, -92)`, and the two
collision blocks run on it. -/
theorem step_frameSpawn (fuel : Nat) (pl : Ship) (n : Nat) (three : Bool) (sh : AsteroidShape)
    (hsh : three = true ∨ sh = AsteroidShape.PENTAGON)
    (halive : pl.alive = true) (hrate : pl.fireRateCrate = 3) :
    step Libm.sample fuel (frameSpawn three) (stockSession pl n sh) =
      some
        { stockSession pl n AsteroidShape.PENTAGON with
          projectiles :=
            (collideProjectiles Libm.sample AsteroidShape.PENTAGON WeaponType.CRATE
              (fun _ => AsteroidDraws.topAt 2 1) (List.replicate n stockProjectile)
              ⟨pl, [MakeAsteroid Libm.sample C_WIDTH C_HEIGHT AsteroidShape.PENTAGON
                (AsteroidDraws.topAt 2 (21 / 32))], 0⟩).1
          asteroids :=
            (collideShip Renderer.game (1 / 2)
              (collideProjectiles Libm.sample AsteroidShape.PENTAGON WeaponType.CRATE
                (fun _ => AsteroidDraws.topAt 2 1) (List.replicate n stockProjectile)
                ⟨pl, [MakeAsteroid Libm.sample C_WIDTH C_HEIGHT AsteroidShape.PENTAGON
                  (AsteroidDraws.topAt 2 (21 / 32))], 0⟩).2.asteroids
              (collideProjectiles Libm.sample AsteroidShape.PENTAGON WeaponType.CRATE
                (fun _ => AsteroidDraws.topAt 2 1) (List.replicate n stockProjectile)
                ⟨pl, [MakeAsteroid Libm.sample C_WIDTH C_HEIGHT AsteroidShape.PENTAGON
                  (AsteroidDraws.topAt 2 (21 / 32))], 0⟩).2.player).1
          player :=
            (collideShip Renderer.game (1 / 2)
              (collideProjectiles Libm.sample AsteroidShape.PENTAGON WeaponType.CRATE
                (fun _ => AsteroidDraws.topAt 2 1) (List.replicate n stockProjectile)
                ⟨pl, [MakeAsteroid Libm.sample C_WIDTH C_HEIGHT AsteroidShape.PENTAGON
                  (AsteroidDraws.topAt 2 (21 / 32))], 0⟩).2.asteroids
              (collideProjectiles Libm.sample AsteroidShape.PENTAGON WeaponType.CRATE
                (fun _ => AsteroidDraws.topAt 2 1) (List.replicate n stockProjectile)
                ⟨pl, [MakeAsteroid Libm.sample C_WIDTH C_HEIGHT AsteroidShape.PENTAGON
                  (AsteroidDraws.topAt 2 (21 / 32))], 0⟩).2.player).2 } := by
  have h30 : ¬ ((3 : ℚ) < 0) := by norm_num
  have hshape : shapeSwitch (frameSpawn three).keys sh = AsteroidShape.PENTAGON := by
    rcases hsh with h | h
    · simp [h, shapeSwitch, frameSpawn, frameFirst, Keys.none]
    · cases three <;> simp [h, shapeSwitch, frameSpawn, frameFirst, Keys.none]
  simp only [frameSpawn, frameFirst, Keys.none] at hshape
  simp [step, stockSession, frameSpawn, frameFirst, Keys.none, restartBlock, hshape,
    weaponSwitch, shootingBlock, spawnBlock, Ship.Update, Ship.IsAlive, halive, hrate,
    Ship.GetFireRate, MAX_AST, Utils.RandomFloat, C_SPAWN_MIN, C_SPAWN_MAX, h30,
    updateProjectiles_replicate _ _ _ _ (stockProjectile_stays _ _)]

/-- The first projectile of the stock hits the obstacle `frameSpawn` spawned. -/
theorem spawned_firstHit :
    firstHit stockProjectile [MakeAsteroid Libm.sample C_WIDTH C_HEIGHT AsteroidShape.PENTAGON
      (AsteroidDraws.topAt 2 (21 / 32))]
      = some (0, MakeAsteroid Libm.sample C_WIDTH C_HEIGHT AsteroidShape.PENTAGON
        (AsteroidDraws.topAt 2 (21 / 32))) := by
  obtain ⟨hp, hr, _⟩ := spawned_facts
  have := projectileHits_stock _ (by rw [hp]) (by rw [hp, hr])
  simp [firstHit, this]

/-- A frame `frameSpawn` while the score stays at or below 500: the spawned obstacle is shot by
one projectile of the stock and nothing else changes. -/
theorem step_frameSpawn_build (fuel : Nat) (pl : Ship) (n : Nat) (three : Bool)
    (sh : AsteroidShape) (hsh : three = true ∨ sh = AsteroidShape.PENTAGON)
    (hpl : pl.position = ⟨525, 100⟩ ∧ pl.alive = true ∧ pl.GetRadius = 50 ∧ pl.fireRateCrate = 3)
    (hscore : pl.dmg_dealt + 60 ≤ 500) :
    step Libm.sample fuel (frameSpawn three) (stockSession pl (n + 1) sh) =
      some (stockSession (pl.DealDamage 60 WeaponType.CRATE) n AsteroidShape.PENTAGON) := by
  rw [step_frameSpawn fuel pl (n + 1) three sh hsh hpl.2.1 hpl.2.2.2]
  have hs : (pl.DealDamage 60 WeaponType.CRATE).GetScore = pl.dmg_dealt + 60 :=
    Ship.DealDamage_score pl 60 WeaponType.CRATE
  have hcond : ¬ ((pl.DealDamage 60 WeaponType.CRATE).GetScore > 500 ∧
      Int.tmod (pl.DealDamage 60 WeaponType.CRATE).GetScore 5 ≠ 0) := by
    rw [hs]
    omega
  have hcp : collideProjectiles Libm.sample AsteroidShape.PENTAGON WeaponType.CRATE
      (fun _ => AsteroidDraws.topAt 2 1) (List.replicate (n + 1) stockProjectile)
      ⟨pl, [MakeAsteroid Libm.sample C_WIDTH C_HEIGHT AsteroidShape.PENTAGON
        (AsteroidDraws.topAt 2 (21 / 32))], 0⟩
      = (List.replicate n stockProjectile, ⟨pl.DealDamage 60 WeaponType.CRATE, [], 0⟩) := by
    rw [List.replicate_succ, collideProjectiles, spawned_firstHit]
    simp only [resolveHit, spawned_facts.2.2]
    rw [if_neg hcond]
    simp only [List.eraseIdx_cons_zero]
    rw [collideProjectiles_no_asteroids]
  rw [hcp]
  simp [stockSession, collideShip]

/-- A frame `frameSpawn` that takes the score above 500, at remainder 3 modulo 5: the spawned
obstacle and then one obstacle per stocked projectile are split in two, and all of them are
still there after the frame. -/
theorem step_frameSpawn_chain (fuel : Nat) (pl : Ship) (n : Nat) (three : Bool)
    (sh : AsteroidShape) (hsh : three = true ∨ sh = AsteroidShape.PENTAGON)
    (hpl : pl.position = ⟨525, 100⟩ ∧ pl.alive = true ∧ pl.GetRadius = 50 ∧ pl.fireRateCrate = 3)
    (hscore : 500 < pl.dmg_dealt + 60) (hmod : pl.dmg_dealt % 5 = 3) :
    ∃ s : Session,
      step Libm.sample fuel (frameSpawn three) (stockSession pl (n + 1) sh) = some s ∧
      s.asteroids.length = n + 2 := by
  rw [step_frameSpawn fuel pl (n + 1) three sh hsh hpl.2.1 hpl.2.2.2]
  have hs : (pl.DealDamage 60 WeaponType.CRATE).GetScore = pl.dmg_dealt + 60 :=
    Ship.DealDamage_score pl 60 WeaponType.CRATE
  have hcond : (pl.DealDamage 60 WeaponType.CRATE).GetScore > 500 ∧
      Int.tmod (pl.DealDamage 60 WeaponType.CRATE).GetScore 5 ≠ 0 := by
    rw [hs]
    refine ⟨by omega, ?_⟩
    rw [Int.tmod_eq_emod (by omega) (by norm_num)]
    omega
  obtain ⟨hp1, _, hr1, _, hd1⟩ := stock_player_facts pl 60 hpl
  obtain ⟨pl1, k1, hrun, hpos, hrad⟩ := collideProjectiles_chain n
    (pl.DealDamage 60 WeaponType.CRATE) 1 2 (by omega) (by omega)
  have hfl : floatToInt (525 : ℚ) = 525 ∧ floatToInt (-92 : ℚ) = -92 := by
    constructor
    · simpa using floatToInt_intCast 525
    · simpa using floatToInt_intCast (-92)
  have hcp : collideProjectiles Libm.sample AsteroidShape.PENTAGON WeaponType.CRATE
      (fun _ => AsteroidDraws.topAt 2 1) (List.replicate (n + 1) stockProjectile)
      ⟨pl, [MakeAsteroid Libm.sample C_WIDTH C_HEIGHT AsteroidShape.PENTAGON
        (AsteroidDraws.topAt 2 (21 / 32))], 0⟩
      = ([], ⟨pl1, List.replicate (1 + 1 + n) splitAsteroid, k1⟩) := by
    rw [List.replicate_succ, collideProjectiles, spawned_firstHit]
    simp only [resolveHit, spawned_facts.2.2]
    rw [if_pos hcond]
    simp only [Asteroid.GetPosition, spawned_facts.1, hfl.1, hfl.2]
    rw [show MakeAsteroid Libm.sample 525 (-92) AsteroidShape.PENTAGON
      (AsteroidDraws.topAt 2 1) = splitAsteroid from rfl]
    exact hrun
  rw [hcp]
  simp only
  rw [splitAsteroid_survives pl1 (by rw [hpos, hp1]) (by rw [hrad, hr1])]
  refine ⟨_, rfl, ?_⟩
  simp
  omega

/-- The first three frames bring the player to `(525, 100)` with the bullet weapon selected. -/
theorem run_move :
    run Libm.sample 180 [frameFirst, frameMove1, frameMove2] (Session.initial 400 1) =
      some
        { player := stockPlayer
          asteroids := []
          projectiles := []
          currentShape := AsteroidShape.RANDOM
          spawnTimer := 6 / 5
          spawnInterval := 3
          currentWeapon := WeaponType.BULLET
          shotTimer := 0
          highscore := 0 } := by
  have h1 : ¬ ((15 : ℚ) < 0) := by norm_num
  have h2 : ¬ ((3 : ℚ) ≤ 2⁻¹) := by norm_num
  have h3 : ¬ ((3 : ℚ) ≤ 2⁻¹ + 7 / 10) := by norm_num
  have h4 : ¬ ((5 : ℚ) < 0) := by norm_num
  have h5 : ¬ ((3 : ℚ) ≤ 0) := by norm_num
  simp [run, step, Session.initial, frameFirst, frameMove1, frameMove2, Keys.none, restartBlock,
    shapeSwitch, weaponSwitch, WeaponType.next, shootingBlock, spawnBlock, Ship.Update,
    Ship.IsAlive, Ship.create, Ship.GetFireRate, Utils.RandomFloat, C_SPAWN_MIN, C_SPAWN_MAX,
    updateProjectiles, collideProjectiles, collideShip, stockPlayer, C_WIDTH, C_HEIGHT, h1, h2,
    h3, h4, h5]
  norm_num

/-- The obstacle that `frameStock` spawns. -/
theorem healing_spawned_facts :
    (MakeAsteroid Libm.sample C_WIDTH C_HEIGHT AsteroidShape.HEALING
      (AsteroidDraws.topAt 0 (21 / 32))).position = ⟨525, -47⟩ ∧
    (MakeAsteroid Libm.sample C_WIDTH C_HEIGHT AsteroidShape.HEALING
      (AsteroidDraws.topAt 0 (21 / 32))).GetRadius = 47 ∧
    (MakeAsteroid Libm.sample C_WIDTH C_HEIGHT AsteroidShape.HEALING
      (AsteroidDraws.topAt 0 (21 / 32))).GetDamage = -2 := by
  refine ⟨?_, ?_, ?_⟩
  · simp [MakeAsteroid, makeVariant, Asteroid.init, AsteroidDraws.topAt, AsteroidDraws.top,
      Size.ofShift, Asteroid.radiusOfSize, Size.toInt, Utils.RandomFloat, C_WIDTH]
    norm_num
  · simp [MakeAsteroid, makeVariant, Asteroid.init, AsteroidDraws.topAt, AsteroidDraws.top,
      Size.ofShift, Asteroid.radiusOfSize, Size.toInt, Asteroid.GetRadius]
    norm_num
  · simp [MakeAsteroid, makeVariant, Asteroid.init, AsteroidDraws.topAt, AsteroidDraws.top,
      Size.ofShift, Size.toInt, Asteroid.GetDamage]

theorem stockPlayer_facts :
    stockPlayer.position = ⟨525, 100⟩ ∧ stockPlayer.alive = true ∧ stockPlayer.GetRadius = 50 ∧
    stockPlayer.fireRateCrate = 3 := by
  refine ⟨rfl, rfl, ?_, rfl⟩
  norm_num [stockPlayer, Ship.create, Ship.GetRadius]

/-- The frame `frameStock` selects the crate weapon, fires 180 crate projectiles from `(525, 50)`, spawns a healing obstacle at
`(525, -47)` and shoots it with the first projectile: 179 projectiles stay, the score is -2. -/
theorem step_frameStock :
    step Libm.sample 180 frameStock
        { player := stockPlayer
          asteroids := []
          projectiles := []
          currentShape := AsteroidShape.RANDOM
          spawnTimer := 6 / 5
          spawnInterval := 3
          currentWeapon := WeaponType.BULLET
          shotTimer := 0
          highscore := 0 }
      = some (stockSession (stockPlayer.DealDamage (-2) WeaponType.CRATE) 179
          AsteroidShape.HEALING) := by
  have hloop := fireLoop_exact stockPlayer WeaponType.CRATE (1 / 3) 2400 (by norm_num) 180 180 []
    (le_refl _)
  have h60 : ((180 : Nat) : ℚ) * (1 / 3) = 60 := by norm_num
  rw [h60] at hloop
  have hproj : MakeProjectile WeaponType.CRATE
      ⟨stockPlayer.GetPosition.x, stockPlayer.GetPosition.y - stockPlayer.GetRadius⟩ 2400
      = stockProjectile := by
    rw [stockPlayer_facts.2.2.1]
    simp only [Ship.GetPosition, stockPlayer_facts.1, stockProjectile]
    norm_num
  rw [hproj, List.nil_append] at hloop
  have hshoot : shootingBlock 180 stockPlayer WeaponType.CRATE frameStock.keys 60 0 []
      = some (0, List.replicate 180 stockProjectile) := by
    simp only [shootingBlock, Ship.IsAlive, stockPlayer_facts.2.1, Ship.GetFireRate,
      Ship.GetSpacing, stockPlayer_facts.2.2.2, frameStock, frameFirst, Keys.none]
    simp only [reduceCtorEq, if_false, if_true, Bool.and_self, zero_add]
    have e : stockPlayer.spacingCrate * 3 = 2400 := by norm_num [stockPlayer, Ship.create]
    rw [e]
    exact hloop
  obtain ⟨hp, hr, hd⟩ := healing_spawned_facts
  have hfirst : firstHit stockProjectile
      [MakeAsteroid Libm.sample C_WIDTH C_HEIGHT AsteroidShape.HEALING
        (AsteroidDraws.topAt 0 (21 / 32))]
      = some (0, MakeAsteroid Libm.sample C_WIDTH C_HEIGHT AsteroidShape.HEALING
        (AsteroidDraws.topAt 0 (21 / 32))) := by
    have := projectileHits_stock _ (by rw [hp]) (by rw [hp, hr])
    simp [firstHit, this]
  have hs : (stockPlayer.DealDamage (-2) WeaponType.CRATE).GetScore = -2 := by
    rw [Ship.DealDamage_score]
    rfl
  have hcond : ¬ ((stockPlayer.DealDamage (-2) WeaponType.CRATE).GetScore > 500 ∧
      Int.tmod (stockPlayer.DealDamage (-2) WeaponType.CRATE).GetScore 5 ≠ 0) := by
    rw [hs]
    omega
  have hcp : collideProjectiles Libm.sample AsteroidShape.HEALING WeaponType.CRATE
      (fun _ => AsteroidDraws.topAt 2 1) (List.replicate 180 stockProjectile)
      ⟨stockPlayer, [MakeAsteroid Libm.sample C_WIDTH C_HEIGHT AsteroidShape.HEALING
        (AsteroidDraws.topAt 0 (21 / 32))], 0⟩
      = (List.replicate 179 stockProjectile,
          ⟨stockPlayer.DealDamage (-2) WeaponType.CRATE, [], 0⟩) := by
    rw [show (180 : Nat) = 179 + 1 from rfl, List.replicate_succ, collideProjectiles, hfirst]
    simp only [resolveHit, hd]
    rw [if_neg hcond]
    simp only [List.eraseIdx_cons_zero]
    rw [collideProjectiles_no_asteroids]
  have hstill : Ship.Update stockPlayer frameStock.keys 60 = stockPlayer := by
    simp [Ship.Update, frameStock, frameFirst, Keys.none, stockPlayer_facts.2.1]
  have hspawn : (3 : ℚ) ≤ 6 / 5 + 60 := by norm_num
  have hupd := updateProjectiles_replicate Renderer.game frameStock.keys 60 stockProjectile
    (stockProjectile_stays _ _) 180
  simp only [frameStock, frameFirst, Keys.none] at hshoot hstill hupd
  simp only [stockSession]
  generalize List.replicate 180 stockProjectile = stock at hshoot hupd hcp
  generalize List.replicate 179 stockProjectile = rest at hcp ⊢
  simp only [step, frameStock, frameFirst, Keys.none, hstill]
  simp only [restartBlock, Ship.IsAlive, stockPlayer_facts.2.1, Bool.not_true, Bool.false_and,
    Bool.false_eq_true, if_false, shapeSwitch, weaponSwitch, WeaponType.next, if_true, hshoot]
  simp [spawnBlock, hspawn, MAX_AST, Utils.RandomFloat, C_SPAWN_MIN, C_SPAWN_MAX, hupd, hcp,
    collideShip]

theorem run_append (m : Libm) (fuel : Nat) (fs gs : List Frame) (s s1 : Session)
    (h : run m fuel fs s = some s1) : run m fuel (fs ++ gs) s = run m fuel gs s1 := by
  induction fs generalizing s with
  | nil =>
    simp only [run, Option.some.injEq] at h
    rw [List.nil_append, h]
  | cons f fs ih =>
    simp only [run, List.cons_append] at h ⊢
    cases hstep : step m fuel f s with
    | none => simp [hstep] at h
    | some s2 =>
      simp only [hstep] at h ⊢
      exact ih s2 h

/-- `k` frames `frameSpawn false` in a row with the pentagon shape selected, while the score
stays at or below 500: each uses up one projectile of the stock and adds 60 to the score. -/
theorem run_frameSpawn_build (fuel : Nat) (k : Nat) :
    ∀ (pl : Ship) (n : Nat),
      (pl.position = ⟨525, 100⟩ ∧ pl.alive = true ∧ pl.GetRadius = 50 ∧ pl.fireRateCrate = 3) →
      pl.dmg_dealt + 60 * (k : Int) ≤ 500 →
      ∃ pl1 : Ship,
        (pl1.position = ⟨525, 100⟩ ∧ pl1.alive = true ∧ pl1.GetRadius = 50 ∧
          pl1.fireRateCrate = 3) ∧
        pl1.dmg_dealt = pl.dmg_dealt + 60 * (k : Int) ∧
        run Libm.sample fuel (List.replicate k (frameSpawn false))
            (stockSession pl (n + k) AsteroidShape.PENTAGON)
          = some (stockSession pl1 n AsteroidShape.PENTAGON) := by
  induction k with
  | zero =>
    intro pl n hpl _
    exact ⟨pl, hpl, by simp, rfl⟩
  | succ k ih =>
    intro pl n hpl hscore
    have hstep := step_frameSpawn_build fuel pl (n + k) false AsteroidShape.PENTAGON
      (Or.inr rfl) hpl (by push_cast at hscore; omega)
    obtain ⟨h1, h2, h3, h4, h5⟩ := stock_player_facts pl 60 hpl
    obtain ⟨pl1, hpl1, hd1, hrun⟩ := ih (pl.DealDamage 60 WeaponType.CRATE) n
      ⟨h1, h2, h3, h4⟩ (by push_cast at hscore; omega)
    refine ⟨pl1, hpl1, by rw [hd1, h5]; push_cast; ring, ?_⟩
    rw [List.replicate_succ, run, show n + (k + 1) = n + k + 1 from rfl, hstep]
    exact hrun

/-- C7, failing run: thirteen frames from the initial empty session (`growthFrames`) end
with 172 live obstacles, more than `MAX_AST = 150`. The spawn block checks the cap; the split
in the projectile-asteroid block pushes two obstacles per hit without checking it. -/
theorem obstacle_count_exceeds_cap :
    Option.map (fun s => s.asteroids.length)
      (run Libm.sample 180 growthFrames (Session.initial 400 1)) = some 172 ∧
    MAX_AST < 172 := by
  refine ⟨?_, by decide⟩
  obtain ⟨h1, h2, h3, h4, h5⟩ := stock_player_facts stockPlayer (-2) stockPlayer_facts
  have h0 : stockPlayer.dmg_dealt = 0 := rfl
  obtain ⟨g1, g2, g3, g4, g5⟩ := stock_player_facts
    (stockPlayer.DealDamage (-2) WeaponType.CRATE) 60 ⟨h1, h2, h3, h4⟩
  have hstock : run Libm.sample 180 [frameFirst, frameMove1, frameMove2, frameStock,
      frameSpawn true] (Session.initial 400 1)
      = some (stockSession ((stockPlayer.DealDamage (-2) WeaponType.CRATE).DealDamage 60
          WeaponType.CRATE) (171 + 7) AsteroidShape.PENTAGON) := by
    have h := run_append Libm.sample 180 [frameFirst, frameMove1, frameMove2]
      [frameStock, frameSpawn true] _ _ run_move
    simp only [List.cons_append, List.nil_append] at h
    rw [h]
    simp only [run, step_frameStock]
    rw [show (179 : Nat) = 178 + 1 from rfl,
      step_frameSpawn_build 180 _ 178 true AsteroidShape.HEALING (Or.inl rfl) ⟨h1, h2, h3, h4⟩
        (by rw [h5, h0]; norm_num)]
  obtain ⟨pl1, hpl1, hd1, hbuild⟩ := run_frameSpawn_build 180 7
    ((stockPlayer.DealDamage (-2) WeaponType.CRATE).DealDamage 60 WeaponType.CRATE) 171
    ⟨g1, g2, g3, g4⟩ (by rw [g5, h5, h0]; norm_num)
  obtain ⟨s, hs, hlen⟩ := step_frameSpawn_chain 180 pl1 170 false AsteroidShape.PENTAGON
    (Or.inr rfl) hpl1
    (by rw [hd1, g5, h5, h0]; norm_num) (by rw [hd1, g5, h5, h0]; norm_num)
  have hsplit : growthFrames
      = [frameFirst, frameMove1, frameMove2, frameStock, frameSpawn true]
        ++ (List.replicate 7 (frameSpawn false) ++ [frameSpawn false]) := by
    simp [growthFrames, List.replicate]
  rw [hsplit, run_append _ _ _ _ _ _ hstock, run_append _ _ _ _ _ _ hbuild]
  simp only [run, hs, Option.map_some', hlen]

/-! ## Projectiles -/

/-- The effect of `Projectile::Update` on a crate: the step forward is taken back. -/
theorem Projectile.Update_crate (r : Renderer) (keys : Keys) (p : Projectile) (dt : ℚ)
    (hp : p.type = WeaponType.CRATE) :
    (Projectile.Update r keys p dt).1 = p := by
  obtain ⟨pos, vel, dmg, ty⟩ := p
  simp only at hp
  subst hp
  unfold Projectile.Update
  simp only [reduceCtorEq, if_false, if_true, Vector2Add, Vector2Subtract, Vector2Scale]
  have hx : pos.x + vel.x * dt - vel.x * dt = pos.x := by ring
  have hy : pos.y + vel.y * dt - vel.y * dt = pos.y := by ring
  split <;> simp [hx, hy]

theorem pair_ite_decide {α : Type} (q : α) (c : Prop) [Decidable c] :
    (if c then (q, true) else (q, false)) = (q, decide c) := by
  split <;> simp [*]

/-- The flag `Projectile::Update` returns is the exit test on the position it leaves. -/
theorem Projectile.Update_exit_flag (r : Renderer) (keys : Keys) (p : Projectile) (dt : ℚ) :
    (Projectile.Update r keys p dt).2 =
      decide ((Projectile.Update r keys p dt).1.position.x < 0 ∨
        (Projectile.Update r keys p dt).1.position.x > (r.screenW : ℚ) ∨
        (Projectile.Update r keys p dt).1.position.y < 0 ∨
        (Projectile.Update r keys p dt).1.position.y > (r.screenH : ℚ)) := by
  unfold Projectile.Update
  dsimp only [Renderer.Width, Renderer.Height]
  rw [pair_ite_decide]

/-- C11, as stated, fails: a crate built by `MakeProjectile` at `(400, 350)` with speed 2400,
updated with `dt = 1/2`, is still at `y = 350`, not further down. -/
theorem crate_does_not_move :
    (MakeProjectile WeaponType.CRATE ⟨400, 350⟩ 2400).position.y = 350 ∧
    (Projectile.Update Renderer.game Keys.none
      (MakeProjectile WeaponType.CRATE ⟨400, 350⟩ 2400) (1 / 2)).1.position.y = 350 := by
  constructor
  · simp [MakeProjectile]
  · rw [Projectile.Update_crate _ _ _ _ (by simp [MakeProjectile])]
    simp [MakeProjectile]

/-- C11, amended: for every third-tier (`CRATE`) projectile built by `MakeProjectile` (any
position, any speed, in particular `speed > 0`), every `dt` (in particular `dt > 0`) and every
keyboard state, `Projectile::Update(dt)` leaves the projectile where it was: it adds
`velocity * dt` and subtracts it again, so the `y` coordinate after the update equals the one
before; the call asks for removal exactly when that unchanged position is outside the screen. -/
theorem crate_update_stays (r : Renderer) (keys : Keys) (pos : Vector2) (speed dt : ℚ) :
    (Projectile.Update r keys (MakeProjectile WeaponType.CRATE pos speed) dt).1
      = MakeProjectile WeaponType.CRATE pos speed ∧
    (Projectile.Update r keys (MakeProjectile WeaponType.CRATE pos speed) dt).1.position = pos ∧
    ((Projectile.Update r keys (MakeProjectile WeaponType.CRATE pos speed) dt).2 = true ↔
      (pos.x < 0 ∨ pos.x > (r.screenW : ℚ) ∨ pos.y < 0 ∨ pos.y > (r.screenH : ℚ))) := by
  have hty : (MakeProjectile WeaponType.CRATE pos speed).type = WeaponType.CRATE := by
    simp [MakeProjectile]
  have hpos : (MakeProjectile WeaponType.CRATE pos speed).position = pos := by
    simp [MakeProjectile]
  have h1 := Projectile.Update_crate r keys _ dt hty
  refine ⟨h1, by rw [h1, hpos], ?_⟩
  rw [Projectile.Update_exit_flag, h1, hpos, decide_eq_true_iff]

/-- C12. `Projectile::Update(dt)`, for every projectile of every weapon kind, every keyboard
state and every `dt`: the call returns `true` (should be removed) exactly when the position it
leaves the projectile at has `x < 0` or `x > screenWidth` or `y < 0` or `y > screenHeight`;
and for a second-tier (`BULLET`) projectile that position is `position + velocity * dt`,
whatever steering keys are held, with nothing else changed. -/
theorem Projectile_Update_contract (r : Renderer) (keys : Keys) (p : Projectile) (dt : ℚ) :
    ((Projectile.Update r keys p dt).2 = true ↔
      ((Projectile.Update r keys p dt).1.position.x < 0 ∨
        (Projectile.Update r keys p dt).1.position.x > (r.screenW : ℚ) ∨
        (Projectile.Update r keys p dt).1.position.y < 0 ∨
        (Projectile.Update r keys p dt).1.position.y > (r.screenH : ℚ))) ∧
    (p.type = WeaponType.BULLET →
      (Projectile.Update r keys p dt).1 =
        { p with position := ⟨p.position.x + p.velocity.x * dt, p.position.y + p.velocity.y * dt⟩ }) := by
  constructor
  · rw [Projectile.Update_exit_flag, decide_eq_true_iff]
  · intro hb
    obtain ⟨pos, vel, dmg, ty⟩ := p
    simp only at hb
    subst hb
    unfold Projectile.Update
    dsimp only []
    rw [pair_ite_decide]
    simp [Vector2Add, Vector2Scale]

/-- C12, instance: a bullet at `(400, 10)` with velocity `(0, -300)`, updated with `dt = 1/10`
while both steering keys are held, is at `(400, -20)` and reported for removal. -/
theorem Projectile_Update_contract_witness :
    (Projectile.Update Renderer.game { Keys.none with downLEFT := true, downRIGHT := true }
      (MakeProjectile WeaponType.BULLET ⟨400, 10⟩ 300) (1 / 10)).1.position = ⟨400, -20⟩ ∧
    (Projectile.Update Renderer.game { Keys.none with downLEFT := true, downRIGHT := true }
      (MakeProjectile WeaponType.BULLET ⟨400, 10⟩ 300) (1 / 10)).2 = true := by
  have h := (Projectile_Update_contract Renderer.game
    { Keys.none with downLEFT := true, downRIGHT := true }
    (MakeProjectile WeaponType.BULLET ⟨400, 10⟩ 300) (1 / 10)).2 (by simp [MakeProjectile])
  have hpos : (Projectile.Update Renderer.game { Keys.none with downLEFT := true, downRIGHT := true }
      (MakeProjectile WeaponType.BULLET ⟨400, 10⟩ 300) (1 / 10)).1.position = ⟨400, -20⟩ := by
    rw [h]
    simp [MakeProjectile]
    norm_num
  refine ⟨hpos, ?_⟩
  rw [(Projectile_Update_contract _ _ _ _).1, hpos]
  norm_num

/-- C16. `MakeProjectile(wt, pos, speed)`, for every position, speed and weapon kind: the
projectile starts at `pos` with velocity `(0, -speed)` and keeps its weapon kind; its damage is
20 for `LASER`, 10 for `BULLET` and 50 for `CRATE`; its radius is 20 for `LASER`, 5 for
`BULLET` and 100 for `CRATE`. -/
theorem MakeProjectile_contract (wt : WeaponType) (pos : Vector2) (speed : ℚ) :
    (MakeProjectile wt pos speed).GetPosition = pos ∧
    (MakeProjectile wt pos speed).velocity = ⟨0, -speed⟩ ∧
    (MakeProjectile wt pos speed).type = wt ∧
    (MakeProjectile wt pos speed).GetDamage =
      (match wt with
        | WeaponType.LASER => 20
        | WeaponType.BULLET => 10
        | WeaponType.CRATE => 50) ∧
    (MakeProjectile wt pos speed).GetRadius =
      (match wt with
        | WeaponType.LASER => 20
        | WeaponType.BULLET => 5
        | WeaponType.CRATE => 100) := by
  cases wt <;>
    simp [MakeProjectile, Projectile.GetPosition, Projectile.GetDamage, Projectile.GetRadius]

/-! ## Alive flag and health -/

theorem Ship.alive_iff_hp_step (c : ShipCall) (s : Ship) (h : s.alive = true ↔ 0 < s.hp) :
    ((c.run s).alive = true ↔ 0 < (c.run s).hp) := by
  cases c with
  | takeDamage dmg =>
    simp only [ShipCall.run]
    cases ha : s.alive
    · rw [Ship.TakeDamage_of_dead s dmg ha]
      exact h
    · rw [Ship.TakeDamage_of_alive s dmg ha]
      simp
  | dealDamage dmg wt =>
    simp only [ShipCall.run, Ship.DealDamage_alive]
    have : (s.DealDamage dmg wt).hp = s.hp := by
      unfold Ship.DealDamage
      split <;> rfl
    rw [this]
    exact h
  | update keys dt =>
    simp only [ShipCall.run, Ship.Update_alive]
    have : (s.Update keys dt).hp = s.hp := by
      unfold Ship.Update
      cases s.alive <;> cases keys.downW <;> cases keys.downS <;> cases keys.downA <;>
        cases keys.downD <;> rfl
    rw [this]
    exact h

theorem runCalls_alive_iff_hp (cs : List ShipCall) (s : Ship) (h : s.alive = true ↔ 0 < s.hp) :
    ((runCalls cs s).alive = true ↔ 0 < (runCalls cs s).hp) := by
  induction cs generalizing s with
  | nil => simpa [runCalls] using h
  | cons c cs ih =>
    have := ih (c.run s) (Ship.alive_iff_hp_step c s h)
    simpa [runCalls] using this

/-- C20. In every ship state reachable from a freshly constructed ship by any sequence of
`TakeDamage`, `DealDamage` and `Update` calls (negative, healing damage included), the alive
flag is true exactly when the health is above 0. -/
theorem alive_iff_health_positive (cs : List ShipCall) (sw sh tw : Int) :
    ((runCalls cs (Ship.create sw sh tw)).IsAlive = true ↔
      0 < (runCalls cs (Ship.create sw sh tw)).GetHP) := by
  apply runCalls_alive_iff_hp
  simp [Ship.create]

/-! ## The projectile-asteroid block -/

/-- What `firstHit` finds: the first asteroid in vector order that is in range. -/
theorem firstHit_some (p : Projectile) :
    ∀ (as : List Asteroid) (i : Nat) (a : Asteroid), firstHit p as = some (i, a) →
      i < as.length ∧ as[i]? = some a ∧ projectileHits p a = true ∧
      ∀ j, j < i → ∀ b, as[j]? = some b → projectileHits p b = false := by
  intro as
  induction as with
  | nil =>
    intro i a h
    simp [firstHit] at h
  | cons x rest ih =>
    intro i a h
    unfold firstHit at h
    by_cases hx : projectileHits p x = true
    · simp only [hx, if_true, Option.some.injEq, Prod.mk.injEq] at h
      obtain ⟨rfl, rfl⟩ := h
      exact ⟨by simp, by simp, hx, fun j hj => absurd hj (Nat.not_lt_zero j)⟩
    · simp only [hx, Bool.false_eq_true, if_false, Option.map_eq_some', Prod.mk.injEq,
        Prod.exists] at h
      obtain ⟨i0, a0, hrest, rfl, rfl⟩ := h
      obtain ⟨h1, h2, h3, h4⟩ := ih i0 a0 hrest
      refine ⟨by simp; omega, by simpa using h2, h3, ?_⟩
      intro j hj b hb
      cases j with
      | zero =>
        simp only [List.getElem?_cons_zero, Option.some.injEq] at hb
        subst hb
        simpa using hx
      | succ j =>
        simp only [List.getElem?_cons_succ] at hb
        exact h4 j (by omega) b hb

/-- `firstHit` finds nothing exactly when no asteroid is in range. -/
theorem firstHit_none_iff (p : Projectile) (as : List Asteroid) :
    firstHit p as = none ↔ ∀ a ∈ as, projectileHits p a = false := by
  induction as with
  | nil => simp [firstHit]
  | cons x rest ih =>
    unfold firstHit
    by_cases hx : projectileHits p x = true
    · simp [hx]
    · simp only [hx, Bool.false_eq_true, if_false, Option.map_eq_none', ih, List.mem_cons,
        forall_eq_or_imp]
      simp only [Bool.not_eq_true] at hx
      simp [hx]

/-- The split test `score % 5 != 0` of C++ (truncated remainder) says that 5 does not divide
the score. -/
theorem tmod_five_ne_zero_iff (x : Int) : Int.tmod x 5 ≠ 0 ↔ ¬ (5 : Int) ∣ x := by
  rw [Int.dvd_iff_tmod_eq_zero]

/-- The asteroid vector after a hit: the hit asteroid erased, and two new ones at the end
when the score test passes. -/
theorem resolveHit_asteroids (m : Libm) (shape : AsteroidShape) (weapon : WeaponType)
    (draws : Nat → AsteroidDraws) (i : Nat) (a : Asteroid) (st : HitState)
    (hi : i < st.asteroids.length) :
    (resolveHit m shape weapon draws i a st).player = st.player.DealDamage a.GetDamage weapon ∧
    (resolveHit m shape weapon draws i a st).asteroids =
      st.asteroids.eraseIdx i ++
        (if 500 < (st.player.DealDamage a.GetDamage weapon).GetScore ∧
            ¬ (5 : Int) ∣ (st.player.DealDamage a.GetDamage weapon).GetScore then
          [MakeAsteroid m (floatToInt a.GetPosition.x) (floatToInt a.GetPosition.y) shape
              (draws st.calls),
            MakeAsteroid m (floatToInt a.GetPosition.x) (floatToInt a.GetPosition.y) shape
              (draws (st.calls + 1))]
        else []) ∧
    (resolveHit m shape weapon draws i a st).calls =
      st.calls + (if 500 < (st.player.DealDamage a.GetDamage weapon).GetScore ∧
            ¬ (5 : Int) ∣ (st.player.DealDamage a.GetDamage weapon).GetScore then 2 else 0) := by
  unfold resolveHit
  simp only [gt_iff_lt, tmod_five_ne_zero_iff]
  split
  · refine ⟨rfl, ?_, rfl⟩
    simp only [List.append_assoc, List.singleton_append]
    rw [List.eraseIdx_append_of_lt_length hi]
  · exact ⟨rfl, by simp, rfl⟩

/-- C13. When a projectile destroys an obstacle in the projectile-obstacle block (the
obstacle is the first one in range, at index `i`), the damage of the obstacle is credited by
one `DealDamage` call, and the number of replacement obstacles appended is exactly 2 if the
score read after that call is greater than 500 and not a multiple of 5, and exactly 0
otherwise; the live obstacle count changes by +1 or -1 respectively. -/
theorem split_on_destruction (m : Libm) (shape : AsteroidShape) (weapon : WeaponType)
    (draws : Nat → AsteroidDraws) (p : Projectile) (i : Nat) (a : Asteroid) (st : HitState)
    (hhit : firstHit p st.asteroids = some (i, a)) :
    (resolveHit m shape weapon draws i a st).player = st.player.DealDamage a.GetDamage weapon ∧
    ((500 < (resolveHit m shape weapon draws i a st).player.GetScore ∧
        ¬ (5 : Int) ∣ (resolveHit m shape weapon draws i a st).player.GetScore) →
      (∃ n1 n2 : Asteroid, (resolveHit m shape weapon draws i a st).asteroids =
        st.asteroids.eraseIdx i ++ [n1, n2]) ∧
      (resolveHit m shape weapon draws i a st).asteroids.length = st.asteroids.length + 1) ∧
    (¬ (500 < (resolveHit m shape weapon draws i a st).player.GetScore ∧
        ¬ (5 : Int) ∣ (resolveHit m shape weapon draws i a st).player.GetScore) →
      (resolveHit m shape weapon draws i a st).asteroids = st.asteroids.eraseIdx i ∧
      (resolveHit m shape weapon draws i a st).asteroids.length + 1 = st.asteroids.length) := by
  obtain ⟨hi, _, _, _⟩ := firstHit_some p st.asteroids i a hhit
  obtain ⟨hpl, hast, _⟩ := resolveHit_asteroids m shape weapon draws i a st hi
  have hlen := List.length_eraseIdx_of_lt hi
  refine ⟨hpl, ?_, ?_⟩
  · intro hc
    rw [hpl] at hc
    rw [hast, if_pos hc]
    refine ⟨⟨_, _, rfl⟩, ?_⟩
    simp only [List.length_append, hlen, List.length_cons, List.length_nil]
    omega
  · intro hc
    rw [hpl] at hc
    rw [hast, if_neg hc]
    simp only [List.append_nil, hlen, true_and]
    omega

theorem runCalls_dealDamage_score (wt : WeaponType) (dmgs : List Int) (s : Ship) :
    (runCalls (dmgs.map (fun d => ShipCall.dealDamage d wt)) s).GetScore
      = s.GetScore + dmgs.sum := by
  induction dmgs generalizing s with
  | nil => simp [runCalls]
  | cons d rest ih =>
    have h := ih (s.DealDamage d wt)
    rw [Ship.DealDamage_score] at h
    simp only [runCalls, List.map_cons, List.foldl_cons, ShipCall.run, List.sum_cons] at h ⊢
    rw [h]
    ring

theorem scoredShip_score (dmgs : List Int) (wt : WeaponType) :
    (scoredShip dmgs wt).GetScore = dmgs.sum := by
  rw [scoredShip, runCalls_dealDamage_score]
  simp [Ship.GetScore, Ship.fresh, Ship.create]

theorem edgeAsteroid_firstHit :
    firstHit stockProjectile [edgeAsteroid] = some (0, edgeAsteroid) := by
  have h : projectileHits stockProjectile edgeAsteroid = true := by
    apply projectileHits_stock <;>
      norm_num [edgeAsteroid, Asteroid.GetRadius, Asteroid.radiusOfSize, Size.toInt]
  simp [firstHit, h]

/-- C13, instance: a crate projectile destroys the only obstacle, of damage 60. After hits
worth 441 the score becomes 501 and two obstacles replace it (count 1 to 2); after hits worth
445 the score becomes 505 and none does (count 1 to 0). -/
theorem split_on_destruction_witness :
    (resolveHit Libm.sample AsteroidShape.PENTAGON WeaponType.CRATE
      (fun _ => AsteroidDraws.top 0) 0 edgeAsteroid
      ⟨scoredShip [-2, -2, 60, 60, 60, 60, 60, 60, 60, 15, 10] WeaponType.CRATE,
        [edgeAsteroid], 0⟩).asteroids.length = 1 + 1 ∧
    (resolveHit Libm.sample AsteroidShape.PENTAGON WeaponType.CRATE
      (fun _ => AsteroidDraws.top 0) 0 edgeAsteroid
      ⟨scoredShip [60, 60, 60, 60, 60, 60, 60, 15, 10] WeaponType.CRATE,
        [edgeAsteroid], 0⟩).asteroids.length + 1 = 1 := by
  have hd : edgeAsteroid.GetDamage = 60 := rfl
  constructor
  · refine ((split_on_destruction Libm.sample AsteroidShape.PENTAGON WeaponType.CRATE
      (fun _ => AsteroidDraws.top 0) stockProjectile 0 edgeAsteroid
      ⟨scoredShip [-2, -2, 60, 60, 60, 60, 60, 60, 60, 15, 10] WeaponType.CRATE,
        [edgeAsteroid], 0⟩ edgeAsteroid_firstHit).2.1 ?_).2
    rw [(resolveHit_asteroids _ _ _ _ _ _ _ (by simp)).1, Ship.DealDamage_score, hd,
      scoredShip_score]
    simp only [List.sum_cons, List.sum_nil]
    omega
  · refine ((split_on_destruction Libm.sample AsteroidShape.PENTAGON WeaponType.CRATE
      (fun _ => AsteroidDraws.top 0) stockProjectile 0 edgeAsteroid
      ⟨scoredShip [60, 60, 60, 60, 60, 60, 60, 15, 10] WeaponType.CRATE,
        [edgeAsteroid], 0⟩ edgeAsteroid_firstHit).2.2 ?_).2
    rw [(resolveHit_asteroids _ _ _ _ _ _ _ (by simp)).1, Ship.DealDamage_score, hd,
      scoredShip_score]
    simp only [List.sum_cons, List.sum_nil]
    omega

/-- Where `MakeAsteroid(w, h, shape)` puts the new asteroid: on one of the four edges of the
`w` by `h` rectangle, one radius outside of it. -/
theorem MakeAsteroid_position (m : Libm) (w h : Int) (shape : AsteroidShape)
    (d : AsteroidDraws) :
    (MakeAsteroid m w h shape d).position =
      (if d.edgeDraw.val = 0 then
        ⟨Utils.RandomFloat 0 (w : ℚ) d.edgeU, -Asteroid.radiusOfSize (Size.ofShift d.sizeDraw)⟩
      else if d.edgeDraw.val = 1 then
        ⟨(w : ℚ) + Asteroid.radiusOfSize (Size.ofShift d.sizeDraw),
          Utils.RandomFloat 0 (h : ℚ) d.edgeU⟩
      else if d.edgeDraw.val = 2 then
        ⟨Utils.RandomFloat 0 (w : ℚ) d.edgeU,
          (h : ℚ) + Asteroid.radiusOfSize (Size.ofShift d.sizeDraw)⟩
      else
        ⟨-Asteroid.radiusOfSize (Size.ofShift d.sizeDraw),
          Utils.RandomFloat 0 (h : ℚ) d.edgeU⟩) := by
  cases shape
  case RANDOM =>
    simp only [MakeAsteroid]
    generalize AsteroidShape.ofDraw d.shapeDraw = sh
    cases sh <;> simp only [makeVariant, Asteroid.init]
  all_goals simp only [MakeAsteroid, makeVariant, Asteroid.init]

theorem Asteroid.radiusOfSize_pos (sz : Size) : 0 < Asteroid.radiusOfSize sz := by
  cases sz <;> norm_num [Asteroid.radiusOfSize, Size.toInt]

/-- No draw puts an asteroid made by `MakeAsteroid(400, 300, shape)` at `(400, 300)`. -/
theorem MakeAsteroid_mid_position (m : Libm) (shape : AsteroidShape) (d : AsteroidDraws) :
    (MakeAsteroid m 400 300 shape d).position ≠ ⟨400, 300⟩ := by
  have hr := Asteroid.radiusOfSize_pos (Size.ofShift d.sizeDraw)
  rw [MakeAsteroid_position]
  intro h
  split at h
  · have := congrArg Vector2.y h
    simp only at this
    linarith
  · split at h
    · have := congrArg Vector2.x h
      simp only at this
      push_cast at this
      linarith
    · split at h
      · have := congrArg Vector2.y h
        simp only at this
        push_cast at this
        linarith
      · have := congrArg Vector2.x h
        simp only at this
        linarith

/-- C14, failing input: a size class 1 triangle obstacle at `(400, 300)` is destroyed by a
laser hit that takes the score from 496 to 501. The two replacement obstacles are made by
`MakeAsteroid(400, 300, shape)`: with the draws "size class 1, top edge, middle" both start at
`(200, -47)`, and with no draws at all does either of them start at `(400, 300)`. -/
theorem replacements_not_at_destroyed_position :
    midAsteroid.GetPosition = ⟨400, 300⟩ ∧
    (resolveHit Libm.sample AsteroidShape.TRIANGLE WeaponType.LASER
      (fun _ => AsteroidDraws.top 0) 0 midAsteroid
      ⟨scoredShip [-2, -2, 60, 60, 60, 60, 60, 60, 60, 60, 20] WeaponType.LASER,
        [midAsteroid], 0⟩).asteroids.map Asteroid.GetPosition
      = [⟨200, -47⟩, ⟨200, -47⟩] ∧
    (∀ (m : Libm) (shape : AsteroidShape) (draws : Nat → AsteroidDraws),
      (resolveHit m shape WeaponType.LASER draws 0 midAsteroid
        ⟨scoredShip [-2, -2, 60, 60, 60, 60, 60, 60, 60, 60, 20] WeaponType.LASER,
          [midAsteroid], 0⟩).asteroids.length = 2 ∧
      ∀ n ∈ (resolveHit m shape WeaponType.LASER draws 0 midAsteroid
        ⟨scoredShip [-2, -2, 60, 60, 60, 60, 60, 60, 60, 60, 20] WeaponType.LASER,
          [midAsteroid], 0⟩).asteroids,
        n.GetPosition ≠ midAsteroid.GetPosition) := by
  have hfl : floatToInt midAsteroid.GetPosition.x = 400 ∧
      floatToInt midAsteroid.GetPosition.y = 300 := by
    constructor
    · simpa [midAsteroid, Asteroid.GetPosition] using floatToInt_intCast 400
    · simpa [midAsteroid, Asteroid.GetPosition] using floatToInt_intCast 300
  have hscore : ((scoredShip [-2, -2, 60, 60, 60, 60, 60, 60, 60, 60, 20]
      WeaponType.LASER).DealDamage midAsteroid.GetDamage WeaponType.LASER).GetScore = 501 := by
    rw [Ship.DealDamage_score, scoredShip_score]
    rfl
  have hres : ∀ (m : Libm) (shape : AsteroidShape) (draws : Nat → AsteroidDraws),
      (resolveHit m shape WeaponType.LASER draws 0 midAsteroid
        ⟨scoredShip [-2, -2, 60, 60, 60, 60, 60, 60, 60, 60, 20] WeaponType.LASER,
          [midAsteroid], 0⟩).asteroids =
        [MakeAsteroid m 400 300 shape (draws 0), MakeAsteroid m 400 300 shape (draws 1)] := by
    intro m shape draws
    rw [(resolveHit_asteroids m shape WeaponType.LASER draws 0 midAsteroid _ (by simp)).2.1,
      hscore, hfl.1, hfl.2, if_pos ⟨by norm_num, by omega⟩]
    simp
  refine ⟨rfl, ?_, ?_⟩
  · rw [hres]
    simp only [List.map_cons, List.map_nil, Asteroid.GetPosition, MakeAsteroid_position]
    simp [AsteroidDraws.top, Size.ofShift, Asteroid.radiusOfSize, Size.toInt, Utils.RandomFloat]
    norm_num
  · intro m shape draws
    rw [hres]
    refine ⟨rfl, ?_⟩
    intro n hn
    simp only [List.mem_cons, List.mem_singleton, List.not_mem_nil, or_false] at hn
    rcases hn with rfl | rfl <;> exact MakeAsteroid_mid_position m shape _

/-! ## The shooting block when not firing -/

theorem floatToInt_of_nonneg (q : ℚ) (hq : 0 ≤ q) : floatToInt q = ⌊q⌋ := by
  unfold floatToInt
  rw [Rat.floor_def, Int.tdiv_eq_ediv (Rat.num_nonneg.mpr hq) (by exact_mod_cast Nat.zero_le _)]

/-- C19. When the fire input is not held or the player is not alive, the shooting block
emits no projectile and clamps the shot accumulator to at most one fire interval: for every
fire rate `R > 0` and every accumulator value `t ≥ 0`, the accumulator after the block is
`≤ 1/R`; it is unchanged when `t ≤ 1/R`; and when `t > 1/R` it is `t` modulo `1/R`, that is
`t - ⌊t / (1/R)⌋ * (1/R)`, which lies in `[0, 1/R)`. -/
theorem not_firing_clamps (fuel : Nat) (player : Ship) (w : WeaponType) (keys : Keys)
    (dt t : ℚ) (ps : List Projectile)
    (hnot : (player.IsAlive && keys.downSPACE) = false)
    (hR : 0 < player.GetFireRate w) (ht : 0 ≤ t) :
    ∃ t1 : ℚ, shootingBlock fuel player w keys dt t ps = some (t1, ps) ∧
      t1 ≤ 1 / player.GetFireRate w ∧
      (t ≤ 1 / player.GetFireRate w → t1 = t) ∧
      (1 / player.GetFireRate w < t →
        t1 = t - (⌊t / (1 / player.GetFireRate w)⌋ : ℚ) * (1 / player.GetFireRate w) ∧
        0 ≤ t1 ∧ t1 < 1 / player.GetFireRate w) := by
  have hi : (0 : ℚ) < 1 / player.GetFireRate w := by positivity
  have hsb : shootingBlock fuel player w keys dt t ps =
      if t > 1 / player.GetFireRate w then some (fmodf t (1 / player.GetFireRate w), ps)
      else some (t, ps) := by
    simp only [shootingBlock, hnot, Bool.false_eq_true, if_false]
  rw [hsb]
  generalize 1 / player.GetFireRate w = I at hi
  by_cases hgt : t > I
  · have hq : 0 ≤ t / I := div_nonneg ht hi.le
    have hfl : (⌊t / I⌋ : ℚ) ≤ t / I := Int.floor_le _
    have hfl2 : t / I < (⌊t / I⌋ : ℚ) + 1 := Int.lt_floor_add_one _
    have e : t = t / I * I := by field_simp
    have h0 : 0 ≤ t - (⌊t / I⌋ : ℚ) * I := by
      have := mul_le_mul_of_nonneg_right hfl hi.le
      linarith
    have h1 : t - (⌊t / I⌋ : ℚ) * I < I := by
      have := mul_lt_mul_of_pos_right hfl2 hi
      linarith
    refine ⟨t - (⌊t / I⌋ : ℚ) * I, ?_, h1.le, fun h => absurd hgt (not_lt.mpr h),
      fun _ => ⟨rfl, h0, h1⟩⟩
    rw [if_pos hgt, fmodf, floatToInt_of_nonneg _ hq]
  · refine ⟨t, ?_, not_lt.mp hgt, fun _ => rfl, fun h => absurd h hgt⟩
    rw [if_neg hgt]

/-- C19, instance: the fresh ship with the laser (interval 1/5 s) and no key held: an
accumulator of 1/2 s becomes 1/10 s, and no projectile is emitted. -/
theorem not_firing_clamps_witness :
    ∃ t1 : ℚ, shootingBlock 0 Ship.fresh WeaponType.LASER Keys.none (1 / 60) (1 / 2) []
        = some (t1, []) ∧
      t1 = 1 / 10 := by
  obtain ⟨t1, hrun, _, _, hmod⟩ := not_firing_clamps 0 Ship.fresh WeaponType.LASER Keys.none
    (1 / 60) (1 / 2) [] rfl (by norm_num [Ship.fresh, Ship.create, Ship.GetFireRate])
    (by norm_num)
  have hrate : Ship.fresh.GetFireRate WeaponType.LASER = 5 := rfl
  rw [hrate] at hmod
  obtain ⟨hval, h0, h1⟩ := hmod (by norm_num)
  refine ⟨t1, hrun, ?_⟩
  have hfloor : ⌊(1 / 2 : ℚ) / (1 / 5)⌋ = 2 := by
    rw [Int.floor_eq_iff]
    norm_num
  rw [hval, hfloor]
  norm_num

/-! ## Restart -/

theorem restartBlock_eq (f : Frame) (s : Session) :
    restartBlock f s = if (!s.player.IsAlive && f.keys.pressedR) = true then resetSession f s
      else s := rfl

theorem restartBlock_highscore_le (f : Frame) (s : Session) :
    s.highscore ≤ (restartBlock f s).highscore := by
  rw [restartBlock_eq]
  split
  · simp only [resetSession]
    split <;> omega
  · exact le_refl _

theorem step_highscore (m : Libm) (fuel : Nat) (f : Frame) (s s1 : Session)
    (h : step m fuel f s = some s1) :
    s1.highscore =
      (restartBlock f { s with
        spawnTimer := s.spawnTimer + f.dt, player := s.player.Update f.keys f.dt }).highscore := by
  unfold step at h
  simp only at h
  split at h
  · exact absurd h (by simp)
  · simp only [Option.some.injEq] at h
    rw [← h]
    simp only [spawnBlock]
    split <;> rfl

/-- The high score never decreases over a frame. -/
theorem step_highscore_le (m : Libm) (fuel : Nat) (f : Frame) (s s1 : Session)
    (h : step m fuel f s = some s1) : s.highscore ≤ s1.highscore := by
  rw [step_highscore m fuel f s s1 h]
  exact restartBlock_highscore_le f _

/-- The high score never decreases over a run, and starts at 0. -/
theorem run_highscore_le (m : Libm) (fuel : Nat) :
    ∀ (fs : List Frame) (s s1 : Session), run m fuel fs s = some s1 →
      s.highscore ≤ s1.highscore := by
  intro fs
  induction fs with
  | nil =>
    intro s s1 h
    simp only [run, Option.some.injEq] at h
    rw [h]
  | cons f fs ih =>
    intro s s1 h
    simp only [run] at h
    cases hstep : step m fuel f s with
    | none => simp [hstep] at h
    | some s2 =>
      simp only [hstep] at h
      exact le_trans (step_highscore_le m fuel f s s2 hstep) (ih s2 s1 h)

/-- In every session reachable from the initial one the high score is at least 0. -/
theorem run_highscore_nonneg (m : Libm) (fuel : Nat) (fs : List Frame) (tw : Int) (u0 : ℚ)
    (s : Session) (h : run m fuel fs (Session.initial tw u0) = some s) : 0 ≤ s.highscore :=
  run_highscore_le m fuel fs (Session.initial tw u0) s h

theorem RandomFloat_spawn_range (u : ℚ) (h0 : 0 ≤ u) (h1 : u ≤ 1) :
    1 / 2 ≤ Utils.RandomFloat C_SPAWN_MIN C_SPAWN_MAX u ∧
    Utils.RandomFloat C_SPAWN_MIN C_SPAWN_MAX u ≤ 3 := by
  simp only [Utils.RandomFloat, C_SPAWN_MIN, C_SPAWN_MAX]
  constructor <;> nlinarith

theorem shootingBlock_not_firing (fuel : Nat) (player : Ship) (w : WeaponType) (keys : Keys)
    (dt t : ℚ) (ps : List Projectile) (hnot : (player.IsAlive && keys.downSPACE) = false) :
    ∃ t1 : ℚ, shootingBlock fuel player w keys dt t ps = some (t1, ps) := by
  simp only [shootingBlock, hnot, Bool.false_eq_true, if_false]
  split
  · exact ⟨_, rfl⟩
  · exact ⟨_, rfl⟩

/-- The firing loop with a positive interval ends for every accumulator value once the fuel
covers the shots that are due. -/
theorem fireLoop_terminates (player : Ship) (w : WeaponType) (interval speed : ℚ)
    (hi : 0 < interval) (t : ℚ) (ps : List Projectile) :
    ∃ N : Nat, ∀ fuel : Nat, N ≤ fuel →
      ∃ res : ℚ × List Projectile, fireLoop player w interval speed fuel t ps = some res := by
  by_cases ht : 0 ≤ t
  · refine ⟨⌊t / interval⌋₊, ?_⟩
    intro fuel hfuel
    have h1 : t / interval < (⌊t / interval⌋₊ : ℚ) + 1 := Nat.lt_floor_add_one _
    have h2 : ((⌊t / interval⌋₊ : Nat) : ℚ) ≤ (fuel : ℚ) := by exact_mod_cast hfuel
    have h3 : t < ((fuel : ℚ) + 1) * interval := by
      have := (div_lt_iff₀ hi).1 (lt_of_lt_of_le h1 (add_le_add_right h2 1))
      linarith
    obtain ⟨k, ps1, hrun, _⟩ := fireLoop_spec player w interval speed fuel t ps ht h3
    exact ⟨_, hrun⟩
  · refine ⟨0, ?_⟩
    intro fuel _
    have hlt : ¬ (t ≥ interval) := by
      intro h
      exact ht (le_trans hi.le h)
    cases fuel <;> exact ⟨(t, ps), by simp [fireLoop, hlt]⟩

/-- The shooting block of a player whose fire rate is positive returns for every accumulator
value and frame time once the fuel covers the shots that are due. -/
theorem shootingBlock_terminates (player : Ship) (w : WeaponType) (keys : Keys) (dt t : ℚ)
    (ps : List Projectile) (hR : 0 < player.GetFireRate w) :
    ∃ N : Nat, ∀ fuel : Nat, N ≤ fuel →
      ∃ res : ℚ × List Projectile, shootingBlock fuel player w keys dt t ps = some res := by
  have hi : (0 : ℚ) < 1 / player.GetFireRate w := by positivity
  cases hc : (player.IsAlive && keys.downSPACE) with
  | true =>
    obtain ⟨N, hN⟩ := fireLoop_terminates player w (1 / player.GetFireRate w)
      (player.GetSpacing w * player.GetFireRate w) hi (t + dt) ps
    refine ⟨N, fun fuel hfuel => ?_⟩
    simp only [shootingBlock, hc, if_true]
    exact hN fuel hfuel
  | false =>
    refine ⟨0, fun fuel _ => ?_⟩
    obtain ⟨t1, h⟩ := shootingBlock_not_firing fuel player w keys dt t ps hc
    exact ⟨_, h⟩

theorem Ship.Update_keeps (s : Ship) (keys : Keys) (dt : ℚ) :
    (s.Update keys dt).textureWidth = s.textureWidth ∧
    (s.Update keys dt).GetScore = s.GetScore ∧
    (s.Update keys dt).IsAlive = s.IsAlive := by
  refine ⟨?_, ?_, Ship.Update_alive s keys dt⟩
  · unfold Ship.Update
    cases s.alive <;> cases keys.downW <;> cases keys.downS <;>
      cases keys.downA <;> cases keys.downD <;> rfl
  · unfold Ship.Update Ship.GetScore
    cases s.alive <;> cases keys.downW <;> cases keys.downS <;>
      cases keys.downA <;> cases keys.downD <;> rfl

/-- A whole frame in which the restart fires and the fire key is not held: the later blocks
of the frame leave what the restart block set up. -/
theorem step_restart (m : Libm) (fuel : Nat) (f : Frame) (s0 : Session)
    (hdead : s0.player.IsAlive = false) (hR : f.keys.pressedR = true)
    (hsp : f.keys.downSPACE = false) (hu0 : 0 ≤ f.restartU) :
    ∃ s1 : Session, step m fuel f s0 = some s1 ∧
      s1.highscore = max s0.highscore s0.player.GetScore ∧
      s1.player = Ship.create C_WIDTH C_HEIGHT s0.player.textureWidth ∧
      s1.asteroids = [] ∧ s1.projectiles = [] ∧ s1.spawnTimer = 0 ∧
      s1.spawnInterval = Utils.RandomFloat C_SPAWN_MIN C_SPAWN_MAX f.restartU := by
  obtain ⟨htw, hsc, hal⟩ := Ship.Update_keeps s0.player f.keys f.dt
  rw [hdead] at hal
  have hrb : restartBlock f { s0 with
        spawnTimer := s0.spawnTimer + f.dt,
        player := s0.player.Update f.keys f.dt } = resetSession f { s0 with
        spawnTimer := s0.spawnTimer + f.dt,
        player := s0.player.Update f.keys f.dt } := by
    rw [restartBlock_eq]
    simp only [hal, hR, Bool.not_false, Bool.and_self, if_true]
  have hint : ¬ ((0 : ℚ) ≥ Utils.RandomFloat C_SPAWN_MIN C_SPAWN_MAX f.restartU) := by
    simp only [Utils.RandomFloat, C_SPAWN_MIN, C_SPAWN_MAX]
    intro h
    nlinarith
  have hmax : (if s0.player.GetScore > s0.highscore then s0.player.GetScore
      else s0.highscore) = max s0.highscore s0.player.GetScore := by
    split <;> omega
  obtain ⟨t1, ht1⟩ := shootingBlock_not_firing fuel
    (Ship.create C_WIDTH C_HEIGHT s0.player.textureWidth)
    (weaponSwitch f.keys s0.currentWeapon) f.keys f.dt s0.shotTimer []
    (by rw [hsp]; simp)
  unfold step
  simp only [hrb, resetSession, htw, hsc, hmax, ht1, spawnBlock, hint, false_and, if_false,
    updateProjectiles, collideProjectiles, collideShip]
  exact ⟨_, rfl, rfl, rfl, rfl, rfl, rfl, rfl⟩

/-- A whole frame in which the restart fires while the fire key is held: the shooting block,
which comes after the restart block and keeps the old shot accumulator, can emit a projectile
for the new player in the same frame. Here the accumulator is 0.1 s, the frame 0.25 s, the
weapon the laser (one shot every 0.2 s): one shot is due, and it is at `(400, 300)` after the
projectile update of the frame. -/
theorem step_restart_firing (m : Libm) (f : Frame) (s0 : Session)
    (hdead : s0.player.IsAlive = false) (htw : s0.player.textureWidth = 400)
    (hw : s0.currentWeapon = WeaponType.LASER) (ht : s0.shotTimer = 1 / 10)
    (hdt : f.dt = 1 / 4) (hR : f.keys.pressedR = true) (hsp : f.keys.downSPACE = true)
    (htab : f.keys.pressedTAB = false) (hl : f.keys.downLEFT = false)
    (hr : f.keys.downRIGHT = false) (hu0 : 0 ≤ f.restartU) :
    ∃ s1 : Session, step m 1 f s0 = some s1 ∧
      s1.projectiles = [⟨⟨400, 300⟩, ⟨0, -200⟩, 20, WeaponType.LASER⟩] := by
  obtain ⟨htw1, hsc, hal⟩ := Ship.Update_keeps s0.player f.keys f.dt
  rw [hdead] at hal
  have hrb : restartBlock f { s0 with
        spawnTimer := s0.spawnTimer + f.dt,
        player := s0.player.Update f.keys f.dt } = resetSession f { s0 with
        spawnTimer := s0.spawnTimer + f.dt,
        player := s0.player.Update f.keys f.dt } := by
    rw [restartBlock_eq]
    simp only [hal, hR, Bool.not_false, Bool.and_self, if_true]
  have hint : ¬ ((0 : ℚ) ≥ Utils.RandomFloat C_SPAWN_MIN C_SPAWN_MAX f.restartU) := by
    simp only [Utils.RandomFloat, C_SPAWN_MIN, C_SPAWN_MAX]
    intro h
    nlinarith
  have hshoot : shootingBlock 1 (Ship.create C_WIDTH C_HEIGHT 400) WeaponType.LASER f.keys
      (1 / 4) (1 / 10) [] = some (3 / 20, [⟨⟨400, 350⟩, ⟨0, -200⟩, 20, WeaponType.LASER⟩]) := by
    simp only [shootingBlock, hsp, Ship.create, Ship.IsAlive, Bool.and_self, if_true,
      Ship.GetFireRate, Ship.GetSpacing, fireLoop, Ship.GetPosition, Ship.GetRadius,
      MakeProjectile, C_WIDTH, C_HEIGHT]
    norm_num
  have hupd : updateProjectiles Renderer.game f.keys (1 / 4)
      [⟨⟨400, 350⟩, ⟨0, -200⟩, 20, WeaponType.LASER⟩]
      = [⟨⟨400, 300⟩, ⟨0, -200⟩, 20, WeaponType.LASER⟩] := by
    simp only [updateProjectiles, Projectile.Update, hl, hr, Vector2Add, Vector2Scale,
      Renderer.game, Renderer.Width, Renderer.Height, C_WIDTH, C_HEIGHT]
    norm_num
  unfold step
  simp only [hrb]
  rw [hdt] at htw1
  simp only [resetSession, htw1, htw, hw, weaponSwitch, htab, hdt, ht, hshoot, spawnBlock,
    hint, false_and, if_false, Bool.false_eq_true, hupd, collideProjectiles, firstHit,
    collideShip]
  exact ⟨_, rfl, rfl⟩

theorem gameOverSession_facts :
    gameOverSession.player.IsAlive = false ∧ gameOverSession.player.GetScore = 120 ∧
    gameOverSession.highscore = 50 := by
  have hs : (scoredShip [60, 60] WeaponType.LASER).GetScore = 120 := by
    rw [scoredShip_score]
    rfl
  have ha : (scoredShip [60, 60] WeaponType.LASER).alive = true := by
    simp [scoredShip, runCalls, ShipCall.run, Ship.DealDamage_alive, Ship.fresh, Ship.create]
  have hh : (scoredShip [60, 60] WeaponType.LASER).hp = 100 := by
    simp [scoredShip, runCalls, ShipCall.run, Ship.DealDamage, Ship.fresh, Ship.create]
  have hdead := Ship.TakeDamage_of_alive _ 100 ha
  refine ⟨?_, ?_, rfl⟩
  · simp only [gameOverSession, Ship.IsAlive, hdead, hh]
    rfl
  · simp only [gameOverSession, hdead]
    exact hs

theorem Ship.create_GetFireRate_pos (sw sh tw : Int) (w : WeaponType) :
    0 < (Ship.create sw sh tw).GetFireRate w := by
  cases w <;> simp [Ship.create, Ship.GetFireRate]

/-- A whole frame in which the restart fires, whatever else is pressed: once the fuel covers
the shots that are due, the frame ends with the high score, the new player, no obstacle, the
spawn timer and the spawn interval as the restart block set them, and with the projectiles
that the shooting block of this frame fired for the new player (`fired`, from an empty
vector), advanced once by the projectile update. -/
theorem step_restart_any (m : Libm) (f : Frame) (s0 : Session)
    (hdead : s0.player.IsAlive = false) (hR : f.keys.pressedR = true)
    (hu0 : 0 ≤ f.restartU) :
    ∃ N : Nat, ∀ fuel : Nat, N ≤ fuel →
      ∃ (s1 : Session) (t1 : ℚ) (fired : List Projectile),
        shootingBlock fuel (Ship.create C_WIDTH C_HEIGHT s0.player.textureWidth)
          (weaponSwitch f.keys s0.currentWeapon) f.keys f.dt s0.shotTimer [] = some (t1, fired) ∧
        step m fuel f s0 = some s1 ∧
        s1.highscore = max s0.highscore s0.player.GetScore ∧
        s1.player = Ship.create C_WIDTH C_HEIGHT s0.player.textureWidth ∧
        s1.asteroids = [] ∧
        s1.projectiles = updateProjectiles Renderer.game f.keys f.dt fired ∧
        s1.spawnTimer = 0 ∧
        s1.spawnInterval = Utils.RandomFloat C_SPAWN_MIN C_SPAWN_MAX f.restartU := by
  obtain ⟨htw, hsc, hal⟩ := Ship.Update_keeps s0.player f.keys f.dt
  rw [hdead] at hal
  have hrb : restartBlock f { s0 with
        spawnTimer := s0.spawnTimer + f.dt,
        player := s0.player.Update f.keys f.dt } = resetSession f { s0 with
        spawnTimer := s0.spawnTimer + f.dt,
        player := s0.player.Update f.keys f.dt } := by
    rw [restartBlock_eq]
    simp only [hal, hR, Bool.not_false, Bool.and_self, if_true]
  have hint : ¬ ((0 : ℚ) ≥ Utils.RandomFloat C_SPAWN_MIN C_SPAWN_MAX f.restartU) := by
    simp only [Utils.RandomFloat, C_SPAWN_MIN, C_SPAWN_MAX]
    intro h
    nlinarith
  have hmax : (if s0.player.GetScore > s0.highscore then s0.player.GetScore
      else s0.highscore) = max s0.highscore s0.player.GetScore := by
    split <;> omega
  obtain ⟨N, hN⟩ := shootingBlock_terminates
    (Ship.create C_WIDTH C_HEIGHT s0.player.textureWidth)
    (weaponSwitch f.keys s0.currentWeapon) f.keys f.dt s0.shotTimer []
    (Ship.create_GetFireRate_pos _ _ _ _)
  refine ⟨N, fun fuel hfuel => ?_⟩
  obtain ⟨⟨t1, fired⟩, hres⟩ := hN fuel hfuel
  have key : ∃ s1 : Session, step m fuel f s0 = some s1 ∧
      s1.highscore = max s0.highscore s0.player.GetScore ∧
      s1.player = Ship.create C_WIDTH C_HEIGHT s0.player.textureWidth ∧
      s1.asteroids = [] ∧
      s1.projectiles = updateProjectiles Renderer.game f.keys f.dt fired ∧
      s1.spawnTimer = 0 ∧
      s1.spawnInterval = Utils.RandomFloat C_SPAWN_MIN C_SPAWN_MAX f.restartU := by
    unfold step
    simp only [hrb, resetSession, htw, hsc, hmax, hres, spawnBlock, hint, false_and, if_false,
      collideProjectiles_no_asteroids, collideShip]
    exact ⟨_, rfl, rfl, rfl, rfl, rfl, rfl, rfl⟩
  obtain ⟨s1, h⟩ := key
  exact ⟨s1, t1, fired, hres, h⟩

/-- C15, as stated, fails for the whole step. At game over (`gameOverSession`: player not
alive, laser selected, shot accumulator 0.1 s) a frame of 0.25 s with `R` pressed and the fire
key held restarts the game and, in the shooting block that follows, fires one laser
projectile for the new player: the step ends with one projectile, at `(400, 300)`, so the
projectile collection is not empty. -/
theorem restart_step_keeps_fired_projectile :
    gameOverSession.player.IsAlive = false ∧ frameRestartFire.keys.pressedR = true ∧
    ∃ s1 : Session, step Libm.sample 1 frameRestartFire gameOverSession = some s1 ∧
      s1.projectiles = [⟨⟨400, 300⟩, ⟨0, -200⟩, 20, WeaponType.LASER⟩] ∧
      s1.projectiles ≠ [] := by
  have htw : gameOverSession.player.textureWidth = 400 := by
    have h1 : ∀ (s : Ship) (d : Int), (s.TakeDamage d).textureWidth = s.textureWidth := by
      intro s d
      simp only [Ship.TakeDamage]
      split
      · rfl
      · split <;> rfl
    have h2 : ∀ (s : Ship) (d : Int) (w : WeaponType),
        (s.DealDamage d w).textureWidth = s.textureWidth := by
      intro s d w
      unfold Ship.DealDamage
      split <;> rfl
    simp only [gameOverSession, scoredShip, runCalls, List.map_cons, List.map_nil,
      List.foldl_cons, List.foldl_nil, ShipCall.run, h1, h2]
    rfl
  obtain ⟨s1, hs1, hp⟩ := step_restart_firing Libm.sample frameRestartFire gameOverSession
    gameOverSession_facts.1 htw rfl rfl rfl rfl rfl rfl rfl rfl
    (by norm_num [frameRestartFire])
  exact ⟨gameOverSession_facts.1, rfl, s1, hs1, hp, by rw [hp]; simp⟩

/-- C15, amended. Restart logic of a frame: when the player is not alive and `R` is pressed,
the restart block leaves `highscore = max(old highscore, player's score)`, a fresh player (health 100,
score 0, alive, fire rates 5/15/3), both live collections empty, spawn timer 0 and a spawn
interval within `[0.5, 3.0]` (for a draw `rand()/RAND_MAX` in `[0, 1]`). The high score does
not decrease, over the block and over any whole frame. Running the reset once more on the
resulting state gives the same state up to the resampled spawn interval (the high score of a
session is never negative, see `run_highscore_nonneg`), and the block itself, run again with
`R` pressed, changes nothing because the new player is alive. A whole frame in which the
restart fires and the fire key is not held ends in that same state: the later blocks of the
frame add nothing to it. A whole frame in which the restart fires, whatever else is held,
ends (once the fuel covers the shots that are due) with that high score, that new player, no
obstacle, spawn timer 0 and that spawn interval; its projectiles are the ones the shooting
block of the same frame fired for the new player, advanced once. -/
theorem restart_contract (f g : Frame) (s : Session)
    (hdead : s.player.IsAlive = false) (hR : f.keys.pressedR = true)
    (hu0 : 0 ≤ f.restartU) (hu1 : f.restartU ≤ 1) (hhs : 0 ≤ s.highscore) :
    (restartBlock f s).highscore = max s.highscore s.player.GetScore ∧
    (restartBlock f s).player = Ship.create C_WIDTH C_HEIGHT s.player.textureWidth ∧
    ((restartBlock f s).player.GetHP = 100 ∧ (restartBlock f s).player.GetScore = 0 ∧
      (restartBlock f s).player.IsAlive = true ∧
      (restartBlock f s).player.GetFireRate WeaponType.LASER = 5 ∧
      (restartBlock f s).player.GetFireRate WeaponType.BULLET = 15 ∧
      (restartBlock f s).player.GetFireRate WeaponType.CRATE = 3) ∧
    (restartBlock f s).asteroids = [] ∧ (restartBlock f s).projectiles = [] ∧
    (restartBlock f s).spawnTimer = 0 ∧
    (1 / 2 ≤ (restartBlock f s).spawnInterval ∧ (restartBlock f s).spawnInterval ≤ 3) ∧
    s.highscore ≤ (restartBlock f s).highscore ∧
    (∀ (m : Libm) (fuel : Nat) (f0 : Frame) (s0 s1 : Session),
      step m fuel f0 s0 = some s1 → s0.highscore ≤ s1.highscore) ∧
    resetSession g (restartBlock f s) =
      { restartBlock f s with
        spawnInterval := Utils.RandomFloat C_SPAWN_MIN C_SPAWN_MAX g.restartU } ∧
    restartBlock g (restartBlock f s) = restartBlock f s ∧
    (∀ (m : Libm) (fuel : Nat) (s0 : Session), s0.player.IsAlive = false →
      f.keys.downSPACE = false →
      ∃ s1 : Session, step m fuel f s0 = some s1 ∧
        s1.highscore = max s0.highscore s0.player.GetScore ∧
        s1.player = Ship.create C_WIDTH C_HEIGHT s0.player.textureWidth ∧
        s1.asteroids = [] ∧ s1.projectiles = [] ∧ s1.spawnTimer = 0 ∧
        s1.spawnInterval = Utils.RandomFloat C_SPAWN_MIN C_SPAWN_MAX f.restartU) ∧
    (∀ (m : Libm) (s0 : Session), s0.player.IsAlive = false →
      ∃ N : Nat, ∀ fuel : Nat, N ≤ fuel →
        ∃ (s1 : Session) (t1 : ℚ) (fired : List Projectile),
          shootingBlock fuel (Ship.create C_WIDTH C_HEIGHT s0.player.textureWidth)
            (weaponSwitch f.keys s0.currentWeapon) f.keys f.dt s0.shotTimer []
              = some (t1, fired) ∧
          step m fuel f s0 = some s1 ∧
          s1.highscore = max s0.highscore s0.player.GetScore ∧
          s1.player = Ship.create C_WIDTH C_HEIGHT s0.player.textureWidth ∧
          s1.asteroids = [] ∧
          s1.projectiles = updateProjectiles Renderer.game f.keys f.dt fired ∧
          s1.spawnTimer = 0 ∧
          s1.spawnInterval = Utils.RandomFloat C_SPAWN_MIN C_SPAWN_MAX f.restartU) := by
  have hblock : restartBlock f s = resetSession f s := by
    rw [restartBlock_eq, hdead, hR]
    rfl
  have hhigh : (resetSession f s).highscore = max s.highscore s.player.GetScore := by
    simp only [resetSession]
    split <;> omega
  rw [hblock]
  refine ⟨hhigh, rfl, ⟨rfl, rfl, rfl, rfl, rfl, rfl⟩, rfl, rfl, rfl,
    RandomFloat_spawn_range _ hu0 hu1, by rw [hhigh]; exact le_max_left _ _,
    step_highscore_le, ?_, ?_,
    fun m fuel s0 hd hsp => step_restart m fuel f s0 hd hR hsp hu0,
    fun m s0 hd => step_restart_any m f s0 hd hR hu0⟩
  · have h0 : 0 ≤ (resetSession f s).highscore := by
      rw [hhigh]
      exact le_trans hhs (le_max_left _ _)
    have hscore : (resetSession f s).player.GetScore = 0 := rfl
    have : (resetSession g (resetSession f s)).highscore = (resetSession f s).highscore := by
      show (if (resetSession f s).player.GetScore > (resetSession f s).highscore then
        (resetSession f s).player.GetScore else (resetSession f s).highscore) = _
      rw [hscore, if_neg (by omega)]
    simp only [resetSession] at this ⊢
    simp only [this]
    rfl
  · rw [restartBlock_eq]
    rfl

/-- C15, instance: at game over with score 120 and high score 50, a frame with `R` pressed
and the draw 1/2 leaves high score 120, no obstacle, no projectile and a spawn interval
between 0.5 and 3, after the restart block and at the end of the frame. -/
theorem restart_contract_witness :
    (restartBlock (frameRestart (1 / 2)) gameOverSession).highscore = 120 ∧
    (restartBlock (frameRestart (1 / 2)) gameOverSession).asteroids = [] ∧
    (restartBlock (frameRestart (1 / 2)) gameOverSession).projectiles = [] ∧
    (1 / 2 ≤ (restartBlock (frameRestart (1 / 2)) gameOverSession).spawnInterval ∧
      (restartBlock (frameRestart (1 / 2)) gameOverSession).spawnInterval ≤ 3) ∧
    (∃ s1 : Session, step Libm.sample 0 (frameRestart (1 / 2)) gameOverSession = some s1 ∧
      s1.highscore = 120 ∧ s1.asteroids = [] ∧ s1.projectiles = []) := by
  obtain ⟨hdead, hscore, hhigh⟩ := gameOverSession_facts
  obtain ⟨h1, _, _, h4, h5, _, h7, _, _, _, _, hstep, _⟩ := restart_contract
    (frameRestart (1 / 2)) (frameRestart (1 / 2)) gameOverSession hdead rfl
    (by norm_num [frameRestart]) (by norm_num [frameRestart]) (by rw [hhigh]; norm_num)
  obtain ⟨s1, hs1, hh1, _, ha1, hp1, _⟩ := hstep Libm.sample 0 gameOverSession hdead rfl
  refine ⟨?_, h4, h5, h7, s1, hs1, ?_, ha1, hp1⟩
  · rw [h1, hscore, hhigh]
    rfl
  · rw [hh1, hscore, hhigh]
    rfl

/-! ## The asteroid-ship block -/

/-- With the player not alive the asteroid-ship block only advances the asteroids. -/
theorem collideShip_dead (r : Renderer) (dt : ℚ) (pl : Ship) (h : pl.IsAlive = false) :
    ∀ as : List Asteroid,
      collideShip r dt as pl =
        (as.filterMap (fun a =>
          if (Asteroid.Update r a dt).2 = true then some (Asteroid.Update r a dt).1 else none),
          pl) := by
  intro as
  induction as with
  | nil => rfl
  | cons a rest ih =>
    simp only [collideShip, h, Bool.false_and, Bool.false_eq_true, if_false, ih,
      List.filterMap_cons]
    cases (Asteroid.Update r a dt).2 <;> simp

/-- C18. In the obstacle-ship block, for the obstacle `a` being processed, with `rest` still
to come: if the player is alive at that moment and the distance between the centres is less
than the sum of the radii, the player's health goes down by exactly `a.GetDamage()`, `a` is
removed without being advanced, and the pass goes on with the damaged player; otherwise the
player is left as it is, `a` is advanced by `Update(dt)` and kept exactly when `Update`
returns true. Once the player is not alive, the rest of the pass leaves the player unchanged:
the remaining obstacles deal no damage and are only advanced. -/
theorem ship_phase_contract (r : Renderer) (dt : ℚ) (a : Asteroid) (rest : List Asteroid)
    (pl : Ship) :
    ((pl.IsAlive = true ∧ shipHits pl a = true) →
      (pl.TakeDamage a.GetDamage).GetHP = pl.GetHP - a.GetDamage ∧
      collideShip r dt (a :: rest) pl = collideShip r dt rest (pl.TakeDamage a.GetDamage)) ∧
    (¬ (pl.IsAlive = true ∧ shipHits pl a = true) →
      (collideShip r dt (a :: rest) pl).2 = (collideShip r dt rest pl).2 ∧
      (collideShip r dt (a :: rest) pl).1 =
        (if (Asteroid.Update r a dt).2 = true then
          (Asteroid.Update r a dt).1 :: (collideShip r dt rest pl).1
        else (collideShip r dt rest pl).1)) ∧
    (pl.IsAlive = false →
      (collideShip r dt (a :: rest) pl).2 = pl ∧
      (collideShip r dt (a :: rest) pl).1 =
        (a :: rest).filterMap (fun b =>
          if (Asteroid.Update r b dt).2 = true then some (Asteroid.Update r b dt).1
          else none)) := by
  refine ⟨?_, ?_, ?_⟩
  · rintro ⟨ha, hh⟩
    refine ⟨Ship.TakeDamage_hp pl a.GetDamage ha, ?_⟩
    simp only [collideShip, ha, hh, Bool.and_self, if_true]
  · intro hn
    have hc : (pl.IsAlive && shipHits pl a) = false := by
      cases h1 : pl.IsAlive <;> cases h2 : shipHits pl a <;> simp_all
    simp only [collideShip, hc, Bool.false_eq_true, if_false]
    cases (Asteroid.Update r a dt).2 <;> simp
  · intro hd
    rw [collideShip_dead r dt pl hd]
    exact ⟨rfl, rfl⟩

/-- C18, instance: the fresh player at `(400, 400)` with radius 50 and a size class 1
obstacle (radius 47, damage 5) at `(400, 430)`: the distance 30 is below 97, the collision
registers, the health goes from 100 to 95 and the obstacle is removed. -/
theorem ship_phase_contract_witness :
    collideShip Renderer.game (1 / 60) [nearAsteroid] Ship.fresh
      = ([], Ship.fresh.TakeDamage 5) ∧
    (Ship.fresh.TakeDamage 5).GetHP = 95 := by
  have hhit : shipHits Ship.fresh nearAsteroid = true := by
    simp only [shipHits, Vector2DistanceLt, Ship.GetPosition, Asteroid.GetPosition, Ship.fresh,
      Ship.create, Ship.GetRadius, nearAsteroid, Asteroid.GetRadius, Asteroid.radiusOfSize,
      Size.toInt, decide_eq_true_eq]
    norm_num
  obtain ⟨hhp, hrun⟩ := (ship_phase_contract Renderer.game (1 / 60) nearAsteroid []
    Ship.fresh).1 ⟨rfl, hhit⟩
  have hd : nearAsteroid.GetDamage = 5 := rfl
  rw [hd] at hhp hrun
  refine ⟨?_, ?_⟩
  · rw [hrun]
    rfl
  · rw [hhp]
    rfl

/-! ## The projectile-asteroid block as a whole -/

theorem collideProjectiles_cons_none (m : Libm) (shape : AsteroidShape) (weapon : WeaponType)
    (draws : Nat → AsteroidDraws) (p : Projectile) (ps : List Projectile) (st : HitState)
    (h : firstHit p st.asteroids = none) :
    collideProjectiles m shape weapon draws (p :: ps) st =
      (p :: (collideProjectiles m shape weapon draws ps st).1,
        (collideProjectiles m shape weapon draws ps st).2) := by
  simp only [collideProjectiles, h]

theorem collideProjectiles_cons_some (m : Libm) (shape : AsteroidShape) (weapon : WeaponType)
    (draws : Nat → AsteroidDraws) (p : Projectile) (ps : List Projectile) (st : HitState)
    (i : Nat) (a : Asteroid) (h : firstHit p st.asteroids = some (i, a)) :
    collideProjectiles m shape weapon draws (p :: ps) st =
      collideProjectiles m shape weapon draws ps (resolveHit m shape weapon draws i a st) := by
  simp only [collideProjectiles, h]

/-- Bookkeeping of the whole block: the projectiles that stay are a sublist of the input;
every removed projectile stands for one destroyed asteroid (asteroids before, plus those made
by `MakeAsteroid` during the block, minus asteroids after); and the player changes by one
`DealDamage` call per removed projectile. -/
theorem collideProjectiles_counts (m : Libm) (shape : AsteroidShape) (weapon : WeaponType)
    (draws : Nat → AsteroidDraws) :
    ∀ (ps : List Projectile) (st : HitState),
      (collideProjectiles m shape weapon draws ps st).1.Sublist ps ∧
      st.calls ≤ (collideProjectiles m shape weapon draws ps st).2.calls ∧
      (collideProjectiles m shape weapon draws ps st).2.asteroids.length
          + (ps.length - (collideProjectiles m shape weapon draws ps st).1.length)
        = st.asteroids.length
          + ((collideProjectiles m shape weapon draws ps st).2.calls - st.calls) ∧
      ∃ dmgs : List Int,
        dmgs.length = ps.length - (collideProjectiles m shape weapon draws ps st).1.length ∧
        (collideProjectiles m shape weapon draws ps st).2.player =
          runCalls (dmgs.map (fun d => ShipCall.dealDamage d weapon)) st.player := by
  intro ps
  induction ps with
  | nil =>
    intro st
    exact ⟨List.Sublist.refl _, le_refl _, by simp [collideProjectiles],
      [], by simp [collideProjectiles], by simp [collideProjectiles, runCalls]⟩
  | cons p ps ih =>
    intro st
    cases hfh : firstHit p st.asteroids with
    | none =>
      rw [collideProjectiles_cons_none m shape weapon draws p ps st hfh]
      obtain ⟨hsub, hcalls, hlen, dmgs, hd1, hd2⟩ := ih st
      have hle := hsub.length_le
      refine ⟨hsub.cons₂ p, hcalls, ?_, dmgs, ?_, hd2⟩
      · simp only [List.length_cons]
        omega
      · simp only [List.length_cons]
        omega
    | some r =>
      obtain ⟨i, a⟩ := r
      rw [collideProjectiles_cons_some m shape weapon draws p ps st i a hfh]
      obtain ⟨hi, _, _, _⟩ := firstHit_some p st.asteroids i a hfh
      obtain ⟨hpl, hast, hcl⟩ := resolveHit_asteroids m shape weapon draws i a st hi
      obtain ⟨hsub, hcalls, hlen, dmgs, hd1, hd2⟩ := ih (resolveHit m shape weapon draws i a st)
      have hle := hsub.length_le
      have hera := List.length_eraseIdx_of_lt hi
      have hastlen : (resolveHit m shape weapon draws i a st).asteroids.length + 1
          = st.asteroids.length + ((resolveHit m shape weapon draws i a st).calls - st.calls) := by
        rw [hast, hcl]
        split <;> simp [hera] <;> omega
      have hcl2 : st.calls ≤ (resolveHit m shape weapon draws i a st).calls := by
        rw [hcl]
        omega
      refine ⟨hsub.cons p, le_trans hcl2 hcalls, ?_, a.GetDamage :: dmgs, ?_, ?_⟩
      · simp only [List.length_cons]
        omega
      · simp only [List.length_cons]
        omega
      · rw [hd2, hpl]
        simp [runCalls, ShipCall.run]

/-- C17. The projectile-obstacle block, for the projectile `p` being examined with `ps` still
to come, in the state `st` (player, obstacles) the earlier projectiles left. If no obstacle
is in range, `p` stays and the state is passed on unchanged. If some obstacle is in range,
`p` is removed together with exactly one obstacle `a`, the first in vector order that is in
range; exactly one `DealDamage` call with `a.GetDamage()` is made; and the obstacles passed
on are the old ones without `a`, followed by the replacements (none or two). Over the whole
block the number of projectiles removed equals the number of obstacles destroyed and the
number of `DealDamage` calls, and the projectiles that stay are a sublist of the input. The
block is a total function: it ends for every finite input. -/
theorem projectile_phase_contract (m : Libm) (shape : AsteroidShape) (weapon : WeaponType)
    (draws : Nat → AsteroidDraws) (p : Projectile) (ps : List Projectile) (st : HitState) :
    ((∀ a ∈ st.asteroids, projectileHits p a = false) →
      collideProjectiles m shape weapon draws (p :: ps) st =
        (p :: (collideProjectiles m shape weapon draws ps st).1,
          (collideProjectiles m shape weapon draws ps st).2)) ∧
    ((∃ a ∈ st.asteroids, projectileHits p a = true) →
      ∃ (i : Nat) (a : Asteroid) (reps : List Asteroid) (calls : Nat),
        st.asteroids[i]? = some a ∧ projectileHits p a = true ∧
        (∀ j, j < i → ∀ b, st.asteroids[j]? = some b → projectileHits p b = false) ∧
        (reps.length = 0 ∨ reps.length = 2) ∧
        collideProjectiles m shape weapon draws (p :: ps) st =
          collideProjectiles m shape weapon draws ps
            ⟨st.player.DealDamage a.GetDamage weapon, st.asteroids.eraseIdx i ++ reps, calls⟩) ∧
    ((collideProjectiles m shape weapon draws (p :: ps) st).1.Sublist (p :: ps) ∧
      (collideProjectiles m shape weapon draws (p :: ps) st).2.asteroids.length
          + ((p :: ps).length - (collideProjectiles m shape weapon draws (p :: ps) st).1.length)
        = st.asteroids.length
          + ((collideProjectiles m shape weapon draws (p :: ps) st).2.calls - st.calls) ∧
      ∃ dmgs : List Int,
        dmgs.length =
          (p :: ps).length - (collideProjectiles m shape weapon draws (p :: ps) st).1.length ∧
        (collideProjectiles m shape weapon draws (p :: ps) st).2.player =
          runCalls (dmgs.map (fun d => ShipCall.dealDamage d weapon)) st.player) := by
  refine ⟨?_, ?_, ?_⟩
  · intro hnone
    exact collideProjectiles_cons_none m shape weapon draws p ps st
      ((firstHit_none_iff p st.asteroids).2 hnone)
  · rintro ⟨a0, ha0, hhit0⟩
    cases hfh : firstHit p st.asteroids with
    | none =>
      have := (firstHit_none_iff p st.asteroids).1 hfh a0 ha0
      rw [hhit0] at this
      exact absurd this (by simp)
    | some r =>
      obtain ⟨i, a⟩ := r
      obtain ⟨hi, hget, hhit, hfirst⟩ := firstHit_some p st.asteroids i a hfh
      obtain ⟨hpl, hast, _⟩ := resolveHit_asteroids m shape weapon draws i a st hi
      refine ⟨i, a,
        (if 500 < (st.player.DealDamage a.GetDamage weapon).GetScore ∧
            ¬ (5 : Int) ∣ (st.player.DealDamage a.GetDamage weapon).GetScore then
          [MakeAsteroid m (floatToInt a.GetPosition.x) (floatToInt a.GetPosition.y) shape
              (draws st.calls),
            MakeAsteroid m (floatToInt a.GetPosition.x) (floatToInt a.GetPosition.y) shape
              (draws (st.calls + 1))]
          else []),
        (resolveHit m shape weapon draws i a st).calls, hget, hhit, hfirst, ?_, ?_⟩
      · split <;> simp
      · rw [collideProjectiles_cons_some m shape weapon draws p ps st i a hfh, ← hast, ← hpl]
  · obtain ⟨h1, _, h3, h4⟩ := collideProjectiles_counts m shape weapon draws (p :: ps) st
    exact ⟨h1, h3, h4⟩

theorem midAsteroid_out_of_range : projectileHits stockProjectile midAsteroid = false := by
  have hpr : stockProjectile.GetRadius = 100 := by
    simp [stockProjectile_eq, Projectile.GetRadius]
  simp only [projectileHits, Vector2DistanceLt, Projectile.GetPosition, Asteroid.GetPosition,
    hpr, decide_eq_false_iff_not]
  simp only [stockProjectile_eq, midAsteroid, Asteroid.GetRadius, Asteroid.radiusOfSize,
    Size.toInt]
  norm_num

theorem edgeAsteroid_in_range : projectileHits stockProjectile edgeAsteroid = true := by
  apply projectileHits_stock <;>
    norm_num [edgeAsteroid, Asteroid.GetRadius, Asteroid.radiusOfSize, Size.toInt]

/-- C17, instance: crate projectiles at `(525, 50)`. With only the obstacle at `(400, 300)`
left, which is out of range, the projectile stays. With that obstacle first and the one at
`(525, -92)` second in the vector, the projectile is removed with an obstacle that is in
range and has no obstacle in range before it. -/
theorem projectile_phase_contract_witness :
    collideProjectiles Libm.sample AsteroidShape.PENTAGON WeaponType.CRATE
        (fun _ => AsteroidDraws.top 0) [stockProjectile] ⟨Ship.fresh, [midAsteroid], 0⟩ =
      (stockProjectile :: (collideProjectiles Libm.sample AsteroidShape.PENTAGON
          WeaponType.CRATE (fun _ => AsteroidDraws.top 0) [] ⟨Ship.fresh, [midAsteroid], 0⟩).1,
        (collideProjectiles Libm.sample AsteroidShape.PENTAGON WeaponType.CRATE
          (fun _ => AsteroidDraws.top 0) [] ⟨Ship.fresh, [midAsteroid], 0⟩).2) ∧
    (∃ (i : Nat) (a : Asteroid) (reps : List Asteroid) (calls : Nat),
      [midAsteroid, edgeAsteroid][i]? = some a ∧ projectileHits stockProjectile a = true ∧
      (∀ j, j < i → ∀ b, [midAsteroid, edgeAsteroid][j]? = some b →
        projectileHits stockProjectile b = false) ∧
      (reps.length = 0 ∨ reps.length = 2) ∧
      collideProjectiles Libm.sample AsteroidShape.PENTAGON WeaponType.CRATE
          (fun _ => AsteroidDraws.top 0) [stockProjectile]
          ⟨Ship.fresh, [midAsteroid, edgeAsteroid], 0⟩ =
        collideProjectiles Libm.sample AsteroidShape.PENTAGON WeaponType.CRATE
          (fun _ => AsteroidDraws.top 0) []
          ⟨Ship.fresh.DealDamage a.GetDamage WeaponType.CRATE,
            [midAsteroid, edgeAsteroid].eraseIdx i ++ reps, calls⟩) :=
  ⟨(projectile_phase_contract Libm.sample AsteroidShape.PENTAGON WeaponType.CRATE
      (fun _ => AsteroidDraws.top 0) stockProjectile [] ⟨Ship.fresh, [midAsteroid], 0⟩).1
      (by
        intro a ha
        simp only [List.mem_singleton] at ha
        rw [ha]
        exact midAsteroid_out_of_range),
    (projectile_phase_contract Libm.sample AsteroidShape.PENTAGON WeaponType.CRATE
      (fun _ => AsteroidDraws.top 0) stockProjectile []
      ⟨Ship.fresh, [midAsteroid, edgeAsteroid], 0⟩).2.1
      ⟨edgeAsteroid, by simp, edgeAsteroid_in_range⟩⟩

/-! ## Fire rates stay positive while the score does not go below zero -/

/-- Hits on obstacles that are not healing ones never take the score below zero: all prefix
sums of non-negative damages are non-negative. -/
theorem prefix_sums_nonneg (hs : List (Int × WeaponType)) (h : ∀ x ∈ hs, 0 ≤ x.1) (n : Nat) :
    0 ≤ ((hs.take n).map Prod.fst).sum := by
  apply List.sum_nonneg
  intro d hd
  obtain ⟨x, hx, rfl⟩ := List.mem_map.1 hd
  exact h x (List.mem_of_mem_take hx)

end Asteroids
